import Mathlib

/-!
# Offline-caching service workers of cmsvs

A shallow embedding of the two service workers of the repository,
`src/app/static/js/sw.js` (namespace `App`) and `src/www/sw.js`
(namespace `Www`), and of the part of the browser platform they call
(Cache API, `fetch`, promises), followed by the form validator of
`src/deployment/app/static/js/admin-forms.js` (namespace `AdminFormValidator`).

Every handler is a pure function from its inputs (the request, the cache
storage, the outcome of the platform operations it starts) to an outcome
record holding

* the settled state of the promise it hands to `respondWith` / `waitUntil`,
* the platform calls it issues, in the order they are issued,
* the cache storage once every operation the handler started has finished.
-/

set_option autoImplicit false

namespace SW

/-! ## Platform values -/

/-- A parsed absolute URL, the object `new URL(request.url)` yields. -/
structure URL where
  scheme : String
  host : String
  pathname : String
  search : String
deriving DecidableEq, Repr

/-- Serialised form of a URL, the string `request.url`. -/
def URL.href (u : URL) : String :=
  u.scheme ++ "://" ++ u.host ++ u.pathname ++ u.search

/-- The `origin` property of a URL: scheme and host for the schemes with a tuple
origin, the string `null` for every other scheme. -/
def URL.origin (u : URL) : String :=
  if u.scheme ∈ ["http", "https", "ftp", "ws", "wss"] then u.scheme ++ "://" ++ u.host
  else "null"

/-- JavaScript `s.startsWith(p)`. -/
def startsWith (s p : String) : Bool :=
  p.toList.isPrefixOf s.toList

/-- JavaScript `s.includes(p)`. -/
def includes (s p : String) : Bool :=
  s.toList.tails.any (fun t => p.toList.isPrefixOf t)

/-- A `Request`: method, URL and mode. -/
structure Request where
  method : String
  url : URL
  mode : String
deriving DecidableEq, Repr

/-- A `Response`: status code, response type (`basic`, `cors`, `opaque`, ...), body, and
whether it carries the header `Vary: *`. `response.clone()` is the same value. -/
structure Response where
  status : Nat
  type : String
  body : String
  varyStar : Bool := false
deriving DecidableEq, Repr

/-- The `ok` property of a response: status in the range 200..299. -/
def Response.ok (r : Response) : Bool :=
  decide (200 ≤ r.status) && decide (r.status ≤ 299)

/-- Settled state of a promise: fulfilled with a value or rejected with a reason. -/
inductive Settled (α : Type) where
  | resolved (value : α)
  | rejected (reason : String)
deriving DecidableEq, Repr

/-- The network: what `fetch(request)` settles to, a rejection reason or a response. -/
abbrev Network := Request → Except String Response

/-! ## Cache API -/

/-- One named cache: serialised request URL to stored response, in insertion order.
Only GET requests are keys, so the URL alone identifies an entry. -/
abbrev Cache := List (String × Response)

/-- The origin's cache storage: cache name to cache, in creation order. -/
abbrev CacheStorage := List (String × Cache)

/-- `cache.match(request)`: a request whose method is not GET matches nothing. -/
def cacheMatch (c : Cache) (r : Request) : Option Response :=
  if r.method = "GET" then c.lookup r.url.href else none

/-- `caches.match(request)`: the first match over the caches in creation order. -/
def cachesMatch (s : CacheStorage) (r : Request) : Option Response :=
  s.findSome? (fun nc => cacheMatch nc.2 r)

/-- The GET request a root-relative URL string denotes for a worker located at `self`. -/
def requestOf (self : URL) (path : String) : Request :=
  { method := "GET"
    url := { scheme := self.scheme, host := self.host, pathname := path, search := "" }
    mode := "no-cors" }

/-- `caches.match(path)` with a root-relative URL string. -/
def cachesMatchPath (self : URL) (s : CacheStorage) (path : String) : Option Response :=
  cachesMatch s (requestOf self path)

/-- `caches.open(name)`: the cache is created, empty, when there is none of that name. -/
def cachesOpen (s : CacheStorage) (name : String) : CacheStorage :=
  if s.any (fun nc => nc.1 == name) then s else s ++ [(name, [])]

/-- Storing `resp` under `key` in one cache: an entry of the same key is replaced. -/
def Cache.store (c : Cache) (key : String) (resp : Response) : Cache :=
  c.filter (fun e => e.1 != key) ++ [(key, resp)]

/-- Whether the Cache API takes a request with its response: `cache.put`, and
`cache.addAll` for each of its requests, reject with a TypeError a request whose method
is not GET or whose URL scheme is not http(s), and a response of status 206 or with the
header `Vary: *`. -/
def cacheable (r : Request) (resp : Response) : Bool :=
  r.method == "GET" && (r.url.scheme == "http" || r.url.scheme == "https") &&
    resp.status != 206 && !resp.varyStar

/-- `cache.put(request, response)` on the cache `name`: the entry is stored when the
Cache API takes the pair; otherwise the call rejects and stores nothing. -/
def cachePut (s : CacheStorage) (name : String) (r : Request) (resp : Response) :
    CacheStorage :=
  if cacheable r resp then
    s.map (fun nc => if nc.1 = name then (nc.1, Cache.store nc.2 r.url.href resp) else nc)
  else s

/-- `caches.delete(name)`. -/
def cachesDelete (s : CacheStorage) (name : String) : CacheStorage :=
  s.filter (fun nc => nc.1 != name)

/-- The fetches of `cache.addAll(paths)`: every path is fetched, and the result is the
list of requests with their responses when every fetch resolves with an ok response
that the Cache API takes (no status 206, no `Vary: *`, an http(s) URL), nothing
otherwise. -/
def fetchAll (self : URL) (net : Network) : List String → Option (List (Request × Response))
  | [] => some []
  | p :: ps =>
    match net (requestOf self p) with
    | .ok resp =>
      if resp.ok && cacheable (requestOf self p) resp then
        (fetchAll self net ps).map (fun es => (requestOf self p, resp) :: es)
      else none
    | .error _ => none

/-- The successful outcome of `cache.addAll(paths)`: the responses to store, in order.
`addAll` is all-or-nothing: it rejects, storing nothing, when two of the requests are
the same, when a fetch rejects, or when a response is not ok or is one the Cache API
does not take. -/
def addAllResponses (self : URL) (net : Network) (paths : List String) :
    Option (List (Request × Response)) :=
  if paths.Nodup then fetchAll self net paths else none

/-- Platform calls a handler issues. -/
inductive Call where
  | cachesMatch (href : String)
  | fetch (req : Request)
  | cachesOpen (name : String)
  | cachePut (name : String) (req : Request) (resp : Response)
  | cacheAddAll (name : String) (paths : List String)
  | cachesKeys
  | cachesDelete (name : String)
  | skipWaiting
  | clientsClaim
deriving DecidableEq, Repr

/-- Outcome of a fetch event: `respondWith` is `none` when the handler returns without
calling `event.respondWith` (the browser then handles the request itself), otherwise
the settled state of the promise given to it (`resolved none` is a promise fulfilled
with `undefined`). -/
structure FetchOutcome where
  respondWith : Option (Settled (Option Response))
  calls : List Call
  storage : CacheStorage
deriving DecidableEq, Repr

/-- Outcome of an install or activate event: the settled state of the promise given to
`event.waitUntil`, the calls issued and the storage left. -/
structure LifecycleOutcome where
  waitUntil : Settled Unit
  calls : List Call
  storage : CacheStorage
deriving DecidableEq, Repr

/-! ## Handlers shared by the two workers -/

/-- The install listener of both workers, for a cache name and an asset list:
`waitUntil(caches.open(name).then(cache => cache.addAll(assets)).catch(log))`
followed by `self.skipWaiting()`. `openOk` tells whether `caches.open` resolves. -/
def installHandler (name : String) (assets : List String) (self : URL) (openOk : Bool)
    (net : Network) (s : CacheStorage) : LifecycleOutcome :=
  if openOk then
    let s1 := cachesOpen s name
    match addAllResponses self net assets with
    | some entries =>
      { waitUntil := .resolved ()
        calls := [.cachesOpen name, .skipWaiting, .cacheAddAll name assets]
        storage := entries.foldl (fun st e => cachePut st name e.1 e.2) s1 }
    | none =>
      -- addAll rejected: the catch handler logs and the promise resolves
      { waitUntil := .resolved ()
        calls := [.cachesOpen name, .skipWaiting, .cacheAddAll name assets]
        storage := s1 }
  else
    -- caches.open rejected: the catch handler logs and the promise resolves
    { waitUntil := .resolved ()
      calls := [.cachesOpen name, .skipWaiting]
      storage := s }

/-- The activate listener of both workers, for a cache name:
`waitUntil(caches.keys().then(names => Promise.all(names.map(n => n !== name ?
caches.delete(n) : undefined))))` followed by `self.clients.claim()`.
`keysOk` tells whether `caches.keys()` resolves and `deleteOk n` whether
`caches.delete(n)` does; a cache whose deletion rejects stays. -/
def activateHandler (name : String) (keysOk : Bool) (deleteOk : String → Bool)
    (s : CacheStorage) : LifecycleOutcome :=
  if keysOk then
    let stale := (s.map (fun nc => nc.1)).filter (fun n => n != name)
    { waitUntil := if stale.all deleteOk then .resolved () else .rejected "delete failed"
      calls := [.cachesKeys, .clientsClaim] ++ stale.map (fun n => .cachesDelete n)
      storage := s.filter (fun nc => nc.1 == name || !deleteOk nc.1) }
  else
    { waitUntil := .rejected "keys failed"
      calls := [.cachesKeys, .clientsClaim]
      storage := s }

/-! ## `src/app/static/js/sw.js` -/

namespace App

def CACHE_NAME : String := "cmsvs-notifications-v1"

def urlsToCache : List String :=
  [ "/",
    "/static/css/style.css",
    "/static/js/app.js",
    "/static/icons/notification-icon.png",
    "/static/icons/badge-icon.png" ]

/-- The document the fetch listener looks up for a failed navigation. -/
def offlineDocument : String := "/offline.html"

/-- The install listener. -/
def install (self : URL) (openOk : Bool) (net : Network) (s : CacheStorage) :
    LifecycleOutcome :=
  installHandler CACHE_NAME urlsToCache self openOk net s

/-- The activate listener. -/
def activate (keysOk : Bool) (deleteOk : String → Bool) (s : CacheStorage) :
    LifecycleOutcome :=
  activateHandler CACHE_NAME keysOk deleteOk s

/-- The fetch listener. -/
def fetchHandler (self : URL) (net : Network) (s : CacheStorage) (req : Request) :
    FetchOutcome :=
  -- Only handle GET requests
  if req.method ≠ "GET" then
    { respondWith := none, calls := [], storage := s }
  -- Skip non-HTTP requests
  else if !startsWith req.url.href "http" then
    { respondWith := none, calls := [], storage := s }
  else
    match cachesMatch s req with
    | some cached =>
      -- Return cached version if available
      { respondWith := some (.resolved (some cached))
        calls := [.cachesMatch req.url.href]
        storage := s }
    | none =>
      -- Otherwise fetch from network
      match net req with
      | .ok response =>
        -- Don't cache if not a valid response
        if response.status ≠ 200 || response.type ≠ "basic" then
          { respondWith := some (.resolved (some response))
            calls := [.cachesMatch req.url.href, .fetch req]
            storage := s }
        -- Cache static resources
        else if includes req.url.href "/static/" then
          { respondWith := some (.resolved (some response))
            calls := [.cachesMatch req.url.href, .fetch req, .cachesOpen CACHE_NAME,
                      .cachePut CACHE_NAME req response]
            storage := cachePut (cachesOpen s CACHE_NAME) CACHE_NAME req response }
        else
          { respondWith := some (.resolved (some response))
            calls := [.cachesMatch req.url.href, .fetch req]
            storage := s }
      | .error err =>
        -- Return offline page for navigation requests
        if req.mode = "navigate" then
          { respondWith := some (.resolved (cachesMatchPath self s offlineDocument))
            calls := [.cachesMatch req.url.href, .fetch req,
                      .cachesMatch (requestOf self offlineDocument).url.href]
            storage := s }
        else
          { respondWith := some (.rejected err)
            calls := [.cachesMatch req.url.href, .fetch req]
            storage := s }

end App

/-! ## `src/www/sw.js` -/

namespace Www

def CACHE_NAME : String := "cmsvs-mobile-v1"

def API_BASE_URL : String := "https://www.webtado.live"

def STATIC_CACHE_FILES : List String :=
  [ "/",
    "/index.html",
    "/static/css/style.css",
    "/static/logo_cmsvs.png",
    "/static/icons/icon-192x192.png",
    "/static/icons/icon-512x512.png" ]

/-- The document the fetch listener looks up for a failed navigation. -/
def offlineDocument : String := "/index.html"

/-- Reason of the error the fetch listener throws. -/
def noCachedResponse : String := "Network error and no cached response available"

/-- The install listener. -/
def install (self : URL) (openOk : Bool) (net : Network) (s : CacheStorage) :
    LifecycleOutcome :=
  installHandler CACHE_NAME STATIC_CACHE_FILES self openOk net s

/-- The activate listener. -/
def activate (keysOk : Bool) (deleteOk : String → Bool) (s : CacheStorage) :
    LifecycleOutcome :=
  activateHandler CACHE_NAME keysOk deleteOk s

/-- The routing test of the fetch listener:
`url.origin === API_BASE_URL || url.pathname.startsWith('/api/')`. -/
def isApiRequest (url : URL) : Bool :=
  url.origin == API_BASE_URL || startsWith url.pathname "/api/"

/-- The fetch listener. -/
def fetchHandler (self : URL) (net : Network) (s : CacheStorage) (req : Request) :
    FetchOutcome :=
  -- Handle API requests
  if isApiRequest req.url then
    match net req with
    | .ok response =>
      -- Cache successful API responses for offline access
      if response.ok && req.method == "GET" then
        { respondWith := some (.resolved (some response))
          calls := [.fetch req, .cachesOpen CACHE_NAME, .cachePut CACHE_NAME req response]
          storage := cachePut (cachesOpen s CACHE_NAME) CACHE_NAME req response }
      else
        { respondWith := some (.resolved (some response))
          calls := [.fetch req]
          storage := s }
    | .error _ =>
      -- Return cached response if available
      match cachesMatch s req with
      | some cached =>
        { respondWith := some (.resolved (some cached))
          calls := [.fetch req, .cachesMatch req.url.href]
          storage := s }
      | none =>
        -- Return offline page for navigation requests
        if req.mode = "navigate" then
          { respondWith := some (.resolved (cachesMatchPath self s offlineDocument))
            calls := [.fetch req, .cachesMatch req.url.href,
                      .cachesMatch (requestOf self offlineDocument).url.href]
            storage := s }
        else
          { respondWith := some (.rejected noCachedResponse)
            calls := [.fetch req, .cachesMatch req.url.href]
            storage := s }
  else
    -- Handle static files
    match cachesMatch s req with
    | some cached =>
      { respondWith := some (.resolved (some cached))
        calls := [.cachesMatch req.url.href]
        storage := s }
    | none =>
      match net req with
      | .ok response =>
        -- Cache new static files
        if response.ok then
          { respondWith := some (.resolved (some response))
            calls := [.cachesMatch req.url.href, .fetch req, .cachesOpen CACHE_NAME,
                      .cachePut CACHE_NAME req response]
            storage := cachePut (cachesOpen s CACHE_NAME) CACHE_NAME req response }
        else
          { respondWith := some (.resolved (some response))
            calls := [.cachesMatch req.url.href, .fetch req]
            storage := s }
      | .error _ =>
        -- Return offline page for navigation requests
        if req.mode = "navigate" then
          { respondWith := some (.resolved (cachesMatchPath self s offlineDocument))
            calls := [.cachesMatch req.url.href, .fetch req,
                      .cachesMatch (requestOf self offlineDocument).url.href]
            storage := s }
        else
          { respondWith := some (.rejected noCachedResponse)
            calls := [.cachesMatch req.url.href, .fetch req]
            storage := s }

end Www

/-! ## JSON values and notifications -/

/-- A JSON value, as `event.data.json()` yields and as the notification options hold.
Numbers are kept as integers. -/
inductive Json where
  | null
  | bool (b : Bool)
  | num (n : Int)
  | str (s : String)
  | arr (items : List Json)
  | obj (fields : List (String × Json))

/-- JavaScript truthiness of a JSON value. -/
def Json.truthy : Json → Bool
  | .null => false
  | .bool b => b
  | .num n => decide (n ≠ 0)
  | .str s => decide (s ≠ "")
  | .arr _ => true
  | .obj _ => true

/-- Property read `j.key`: `.error` is the TypeError of reading a property of `null`,
`.ok none` is `undefined` (a key the object lacks, or any key of a string, number,
boolean or array, none of which has a property of the names read here). -/
def Json.prop (j : Json) (key : String) : Except String (Option Json) :=
  match j with
  | .null => .error "TypeError: cannot read properties of null"
  | .obj fields => .ok (fields.lookup key)
  | _ => .ok none

/-- JavaScript `a || b` for a property read `a` and a value `b`. -/
def orDefault (a : Option Json) (b : Json) : Json :=
  match a with
  | some v => if v.truthy then v else b
  | none => b

/-- Object spread `{...base, ...over}` as a list of fields read first match first: the
fields of an object `over` come before those of `base`. Spreading `null`, a number or a
boolean adds nothing; spreading a string or an array adds index keys only, which no
handler reads, so they are left out. -/
def spread (base : List (String × Json)) (over : Json) : List (String × Json) :=
  match over with
  | .obj fields => fields ++ base
  | _ => base

/-- Read of a field the object is known to define (`undefined` reads as `null`). -/
def field (o : List (String × Json)) (key : String) : Json :=
  (o.lookup key).getD .null

/-- The `PushMessageData` of a push event: its raw text and what `json()` returns,
`none` when the text is not valid JSON and `json()` throws. -/
structure PushMessageData where
  text : String
  json : Option Json

/-- A call `self.registration.showNotification(title, options)`. -/
structure Shown where
  title : Json
  options : Json

/-- Outcome of a push event: the notification shown, or the error the handler raises
before showing one. -/
abbrev PushOutcome := Except String Shown

/-- An open window client: its identity and its URL (`client.url` is the `href`). -/
structure WindowClient where
  id : Nat
  url : URL
deriving DecidableEq, Repr

/-- Calls a notificationclick handler issues. -/
inductive ClientCall where
  | close
  | matchAll
  | navigate (client : Nat) (href : String)
  | focus (client : Nat)
  | openWindow (url : Json)

/-- Outcome of a notificationclick event: the calls issued in order, and the error
raised, if any. -/
structure ClickOutcome where
  calls : List ClientCall
  raised : Option String

/-! ## Offline action queue -/

/-- One deferred request of the offline action queue. -/
structure Action where
  url : String
  method : String
  headers : String
  body : String
deriving DecidableEq, Repr

/-- An element of the array `JSON.parse` returns: an action with the identity of its
object, which is what `indexOf` compares. -/
structure Entry where
  id : Nat
  action : Action
deriving DecidableEq, Repr

/-- The objects `JSON.parse` creates for a stored queue: one fresh object per element,
identified by its position counted from `start`. -/
def objectsFrom (start : Nat) : List Action → List Entry
  | [] => []
  | a :: rest => { id := start, action := a } :: objectsFrom (start + 1) rest

/-- JavaScript `arr.indexOf(x)` on objects: the index of the first element that is the
object `x`, `none` for -1. -/
def indexOf : List Entry → Entry → Option Nat
  | [], _ => none
  | y :: ys, x => if y.id = x.id then some 0 else (indexOf ys x).map (fun k => k + 1)

/-- JavaScript `arr.splice(index, 1)` with the result of `indexOf`: the element at the
index is removed; index -1 counts from the end and removes the last element. -/
def splice1 (arr : List Entry) (index : Option Nat) : List Entry :=
  match index with
  | some k => arr.eraseIdx k
  | none => arr.dropLast

/-- State of the replay loop when it ends: the array and the fetches issued, each named
by the entry it replays (`fetch(action.url, {method, headers, body})` with the fields
of that entry), in the order they were issued. -/
structure ReplayState where
  array : List Entry
  fetched : List Entry
deriving DecidableEq, Repr

/-- Outcome of `handleOfflineActions`: the fetches issued and the queue given to
`localStorage.setItem`, `none` when it is not called. -/
structure SyncOutcome where
  fetched : List Entry
  written : Option (List Entry)
deriving DecidableEq, Repr

/-- The queue as `JSON.stringify` writes it: the actions without their identities. -/
def serialise (arr : List Entry) : List Action :=
  arr.map (fun e => e.action)

/-! ## Push, notification click and sync handlers -/

namespace App

/-- The default `notificationData` of the push listener; `now` is `Date.now()`. -/
def defaultNotification (now : Int) : List (String × Json) :=
  [ ("title", .str "إرشيف - إشعار جديد"),
    ("body", .str "لديك إشعار جديد"),
    ("icon", .str "/static/icons/notification-icon.png"),
    ("badge", .str "/static/icons/badge-icon.png"),
    ("data", .obj [("url", .str "/"), ("timestamp", .num now)]),
    ("actions", .arr
      [ .obj [("action", .str "view"), ("title", .str "عرض"),
              ("icon", .str "/static/icons/view-icon.png")],
        .obj [("action", .str "dismiss"), ("title", .str "إغلاق"),
              ("icon", .str "/static/icons/close-icon.png")] ]),
    ("requireInteraction", .bool true),
    ("silent", .bool false),
    ("tag", .str "cmsvs-notification"),
    ("renotify", .bool true) ]

/-- The value of `notificationData` when the push listener shows the notification:
the defaults, overridden by the fields of a payload that parses, or with the body set to
the raw text (when not empty) of a payload that does not. -/
def notificationData (now : Int) (data : Option PushMessageData) : List (String × Json) :=
  match data with
  | none => defaultNotification now
  | some d =>
    match d.json with
    | some payload => spread (defaultNotification now) payload
    | none =>
      ("body", orDefault (some (.str d.text)) (field (defaultNotification now) "body"))
        :: defaultNotification now

/-- The push listener. -/
def push (now : Int) (data : Option PushMessageData) : PushOutcome :=
  let nd := notificationData now data
  .ok { title := field nd "title"
        options := .obj
          [ ("body", field nd "body"),
            ("icon", field nd "icon"),
            ("badge", field nd "badge"),
            ("data", field nd "data"),
            ("actions", field nd "actions"),
            ("requireInteraction", field nd "requireInteraction"),
            ("silent", field nd "silent"),
            ("tag", field nd "tag"),
            ("renotify", field nd "renotify"),
            ("dir", .str "rtl"),
            ("lang", .str "ar") ] }

/-- The loop over `clientList` of the notificationclick listener, followed by
`clients.openWindow(urlToOpen)` when no client returned from it. `target` is
`new URL(urlToOpen, self.location.origin)`. -/
def routeClients (target : URL) (urlToOpen : Json) : List WindowClient → List ClientCall
  | [] => [.openWindow urlToOpen]
  | client :: rest =>
    if client.url.origin = target.origin then
      if client.url.href ≠ target.href then [.navigate client.id target.href, .focus client.id]
      else [.focus client.id]
    else routeClients target urlToOpen rest

/-- The target of a click: `data.url || '/'` with `data = notification.data || {}`. -/
def urlToOpen (data : Json) : Json :=
  match (if data.truthy then data else Json.obj []).prop "url" with
  | .ok u => orDefault u (.str "/")
  | .error _ => .str "/"

/-- The notificationclick listener. `resolve u` is `new URL(u, self.location.origin)`,
`clients` the result of `clients.matchAll`, `action` is `event.action` (empty for a
tap on the notification itself) and `data` is `event.notification.data` (`null` when the
notification has none). -/
def notificationclick (resolve : Json → URL) (clients : List WindowClient)
    (action : String) (data : Json) : ClickOutcome :=
  if action = "dismiss" then
    -- Just close the notification
    { calls := [.close], raised := none }
  else
    { calls := [.close, .matchAll]
        ++ routeClients (resolve (urlToOpen data)) (urlToOpen data) clients
      raised := none }

end App

namespace Www

/-- The title the push listener shows. -/
def notificationTitle : String := "إرشيف - الدفاع المدني"

/-- The default body of the push listener. -/
def defaultBody : String := "لديك إشعار جديد من نظام الأرشفة"

/-- The `options` object of the push listener with its body and `data.url` set. -/
def options (body url : Json) : Json :=
  .obj
    [ ("body", body),
      ("icon", .str "/static/logo_cmsvs.png"),
      ("badge", .str "/static/icons/icon-192x192.png"),
      ("vibrate", .arr [.num 200, .num 100, .num 200]),
      ("data", .obj [("url", url)]),
      ("actions", .arr
        [ .obj [("action", .str "open"), ("title", .str "فتح التطبيق")],
          .obj [("action", .str "close"), ("title", .str "إغلاق")] ]) ]

/-- The push listener: `event.data.json()` is called outside any `try`, and the
payload's own `body` and `url` are read. -/
def push (data : Option PushMessageData) : PushOutcome :=
  match data with
  | none =>
    .ok { title := .str notificationTitle, options := options (.str defaultBody) (.str "/") }
  | some d =>
    match d.json with
    | none => .error "SyntaxError: payload is not valid JSON"
    | some payload =>
      match payload.prop "body", payload.prop "url" with
      | .ok body, .ok url =>
        .ok { title := .str notificationTitle
              options := options (orDefault body (.str defaultBody)) (orDefault url (.str "/")) }
      | .error e, _ => .error e
      | _, .error e => .error e

/-- The notificationclick listener. `action` is `event.action` and `data` is
`event.notification.data` (`null` when the notification has none). -/
def notificationclick (action : String) (data : Json) : ClickOutcome :=
  if action = "open" ∨ action = "" then
    match data.prop "url" with
    | .ok u => { calls := [.close, .openWindow (orDefault u (.str "/"))], raised := none }
    | .error e => { calls := [.close], raised := some e }
  else
    { calls := [.close], raised := none }

/-- The `for (const action of offlineActions)` loop of `handleOfflineActions`, from
the iterator index `i`: the element at `i` is fetched, and removed from the array when
the fetch resolves (`replayOk`); the index then advances. `fuel` bounds the number of
iterations, and the result is `none` when it runs out. -/
def replayLoop (replayOk : Entry → Bool) : Nat → Nat → ReplayState → Option ReplayState
  | 0, _, _ => none
  | fuel + 1, i, st =>
    match st.array[i]? with
    | none => some st
    | some action =>
      if replayOk action then
        -- Remove successful action from offline queue
        replayLoop replayOk fuel (i + 1)
          { array := splice1 st.array (indexOf st.array action)
            fetched := st.fetched ++ [action] }
      else
        replayLoop replayOk fuel (i + 1)
          { array := st.array, fetched := st.fetched ++ [action] }

/-- `handleOfflineActions`. `stored` is the outcome of
`JSON.parse(localStorage.getItem('offlineActions') || '[]')`: the parsed queue, or the
error it throws, which the outer `catch` logs. `replayOk e` tells whether the fetch
replaying `e` resolves. The loop is given one iteration more than the queue has
entries. -/
def handleOfflineActions (stored : Except String (List Action)) (replayOk : Entry → Bool) :
    Option SyncOutcome :=
  match stored with
  | .error _ => some { fetched := [], written := none }
  | .ok queue =>
    (replayLoop replayOk (queue.length + 1) 0
        { array := objectsFrom 0 queue, fetched := [] }).map
      (fun st => { fetched := st.fetched, written := some st.array })

end Www

/-! ## Notification close, message and sync listeners of `src/app/static/js/sw.js` -/

/-- A request a listener starts with `fetch(url, init)`: the URL string, the method, the
headers and the body given in `init` (`none` when `init` has no body). -/
structure OutRequest where
  url : String
  method : String
  headers : List (String × String)
  body : Option Json

/-- What an `async` function did when its promise has settled: the requests it started,
the `console.error` calls it made and the settled state of its promise. -/
structure AsyncOutcome where
  requests : List OutRequest
  logged : List String
  promise : Settled Unit

/-- Outcome of an event whose listener may extend the event's lifetime: the requests
started, the `console.error` calls made, the settled state of the promise given to
`event.waitUntil` (`none` when the listener does not call `event.waitUntil`) and the
error raised by the listener itself, if any. -/
structure EventOutcome where
  requests : List OutRequest
  logged : List String
  waitUntil : Option (Settled Unit)
  raised : Option String

/-- Calls the message listener issues. -/
inductive MessageCall where
  | skipWaiting
  | postMessage (port : Nat) (message : Json)
  | cachesDelete (name : String)

/-- Outcome of a message event: the calls issued in order, the settled state of the
promise given to `event.waitUntil` (`none` when it is not called), the error raised by
the listener itself, if any, and the storage left. -/
structure MessageOutcome where
  calls : List MessageCall
  waitUntil : Option (Settled Unit)
  raised : Option String
  storage : CacheStorage

/-- Strict equality `v === s` of a property read with a string. -/
def isString (v : Option Json) (s : String) : Bool :=
  match v with
  | some (.str t) => t == s
  | _ => false

/-- Truthiness of a property read (`undefined` is falsy). -/
def truthyProp (v : Option Json) : Bool :=
  match v with
  | some j => j.truthy
  | none => false

namespace App

/-- The value `notification.data || {}` of the click and close listeners. -/
def dataOrEmpty (data : Json) : Json :=
  if data.truthy then data else .obj []

/-- A property of `notification.data || {}`; that value is never `null`, so the read
does not throw. -/
def dataProp (data : Json) (key : String) : Option Json :=
  match (dataOrEmpty data).prop key with
  | .ok v => v
  | .error _ => none

/-- The object `{notificationId: data.notificationId, timestamp: Date.now()}` as
`JSON.stringify` writes it: a property whose value is `undefined` is left out. -/
def trackingBody (data : Json) (now : Int) : Json :=
  .obj ((match dataProp data "notificationId" with
          | some v => [("notificationId", v)]
          | none => [])
        ++ [("timestamp", .num now)])

/-- The dismissal-tracking request of the notificationclose listener. -/
def trackingRequest (data : Json) (now : Int) : OutRequest :=
  { url := "/api/notifications/track-dismissal"
    method := "POST"
    headers := [("Content-Type", "application/json")]
    body := some (trackingBody data now) }

/-- The notificationclose listener. `data` is `event.notification.data` (`null` when
the notification has none), `now` is `Date.now()` and `tracking` is what the tracking
request settles to; its rejection is caught and logged. The listener does not call
`event.waitUntil`. -/
def notificationclose (now : Int) (data : Json) (tracking : Except String Response) :
    EventOutcome :=
  if truthyProp (dataProp data "trackDismissal") then
    { requests := [trackingRequest data now]
      logged := match tracking with
        | .ok _ => []
        | .error _ => ["Error tracking notification dismissal:"]
      waitUntil := none
      raised := none }
  else
    { requests := [], logged := [], waitUntil := none, raised := none }

/-- The message listener. `data` is `event.data`, `ports` the identities of
`event.ports`, and `deleteOk` tells whether `caches.delete(CACHE_NAME)` resolves. -/
def message (data : Json) (ports : List Nat) (deleteOk : Bool) (s : CacheStorage) :
    MessageOutcome :=
  match data.prop "type" with
  | .error e => { calls := [], waitUntil := none, raised := some e, storage := s }
  | .ok type =>
    if isString type "SKIP_WAITING" then
      { calls := [.skipWaiting], waitUntil := none, raised := none, storage := s }
    else if isString type "GET_VERSION" then
      match ports with
      | port :: _ =>
        { calls := [.postMessage port (.obj [("version", .str CACHE_NAME)])]
          waitUntil := none, raised := none, storage := s }
      | [] =>
        { calls := [], waitUntil := none
          raised := some "TypeError: cannot read properties of undefined", storage := s }
    else if isString type "CLEAR_CACHE" then
      if deleteOk then
        match ports with
        | port :: _ =>
          { calls := [.cachesDelete CACHE_NAME,
                      .postMessage port (.obj [("success", .bool true)])]
            waitUntil := some (.resolved ()), raised := none
            storage := cachesDelete s CACHE_NAME }
        | [] =>
          { calls := [.cachesDelete CACHE_NAME]
            waitUntil := some (.rejected "TypeError: cannot read properties of undefined")
            raised := none
            storage := cachesDelete s CACHE_NAME }
      else
        { calls := [.cachesDelete CACHE_NAME]
          waitUntil := some (.rejected "delete failed"), raised := none, storage := s }
    else
      { calls := [], waitUntil := none, raised := none, storage := s }

/-- The request of `doBackgroundSync`. -/
def syncRequest : OutRequest :=
  { url := "/api/notifications/sync"
    method := "POST"
    headers := [("Content-Type", "application/json")]
    body := none }

/-- `doBackgroundSync`. `net` is what its request settles to: a response of any
status makes the function return, a rejection is logged and thrown again. -/
def doBackgroundSync (net : Except String Response) : AsyncOutcome :=
  match net with
  | .ok response =>
    { requests := [syncRequest]
      logged := if response.ok then [] else ["Background sync failed:"]
      promise := .resolved () }
  | .error err =>
    { requests := [syncRequest]
      logged := ["Background sync error:"]
      promise := .rejected err }

/-- The sync listener: `doBackgroundSync()` is started, inside `event.waitUntil`, when
the tag is `background-sync`. -/
def sync (tag : String) (net : Except String Response) : EventOutcome :=
  if tag = "background-sync" then
    { requests := (doBackgroundSync net).requests
      logged := (doBackgroundSync net).logged
      waitUntil := some (doBackgroundSync net).promise
      raised := none }
  else
    { requests := [], logged := [], waitUntil := none, raised := none }

end App

/-! ## `src/deployment/app/static/js/admin-forms.js` -/

namespace AdminFormValidator

/-- White space of ECMAScript, what `trim()` removes and `\s` matches. -/
def isSpace (c : Char) : Bool :=
  c.toNat ∈ [0x09, 0x0A, 0x0B, 0x0C, 0x0D, 0x20, 0xA0, 0x1680, 0x2028, 0x2029, 0x202F,
    0x205F, 0x3000, 0xFEFF] || (decide (0x2000 ≤ c.toNat) && decide (c.toNat ≤ 0x200A))

/-- JavaScript `s.trim()`. -/
def trim (s : String) : String :=
  String.mk ((s.toList.dropWhile isSpace).reverse.dropWhile isSpace).reverse

/-- JavaScript `s.length`, in UTF-16 code units. -/
def jsLength (s : String) : Nat :=
  (s.toList.map (fun c => if c.toNat < 0x10000 then 1 else 2)).sum

/-- The test of `/^[a-zA-Z0-9_]{3,20}$/`. -/
def usernamePattern (s : String) : Bool :=
  decide (3 ≤ s.toList.length) && decide (s.toList.length ≤ 20) &&
    s.toList.all (fun c => c.isAlphanum || c == '_')

/-- Membership in the class `[^\s@]`. -/
def emailChar (c : Char) : Bool :=
  !isSpace c && c != '@'

/-- The test of `/^[^\s@]+@[^\s@]+\.[^\s@]+$/`: a non-empty local part, one `@`, and a
rest holding a dot that is neither its first nor its last character. -/
def emailPattern (s : String) : Bool :=
  match s.toList.span (fun c => c != '@') with
  | (localPart, '@' :: rest) =>
    !localPart.isEmpty && localPart.all emailChar && rest.all emailChar &&
      (rest.drop 1).dropLast.contains '.'
  | _ => false

/-- A form field: its id, value and `required` attribute, the identity of its parent
node, and what the validator changes: the classes `border-red-300` and
`border-gray-300` and the attributes `aria-invalid` and `aria-describedby`. -/
structure Field where
  id : String
  value : String
  required : Bool
  parent : Nat
  borderRed : Bool
  borderGray : Bool
  ariaInvalid : Bool
  describedBy : Option String
deriving DecidableEq, Repr

/-- An error message element `div.admin-form-error`. -/
structure ErrorElement where
  parent : Nat
  id : String
  text : String
deriving DecidableEq, Repr

/-- The validator and its form: the fields in document order, the error elements in
document order and the `errors` map in insertion order. -/
structure FormState where
  fields : List Field
  errorElements : List ErrorElement
  errors : List (String × String)
deriving DecidableEq, Repr

/-- The error styling removed from a field: `border-red-300` off, `border-gray-300`
on, `aria-invalid` and `aria-describedby` removed. -/
def unmark (f : Field) : Field :=
  { id := f.id, value := f.value, required := f.required, parent := f.parent,
    borderRed := false, borderGray := true, ariaInvalid := false, describedBy := none }

/-- The error styling put on a field: `border-red-300` on, `border-gray-300` off,
`aria-invalid` set and `aria-describedby` pointing at the error element. -/
def mark (errorId : String) (f : Field) : Field :=
  { id := f.id, value := f.value, required := f.required, parent := f.parent,
    borderRed := true, borderGray := false, ariaInvalid := true,
    describedBy := some errorId }

/-- Change of the field at a position. -/
def updateAt (f : Field → Field) : Nat → List Field → List Field
  | _, [] => []
  | 0, x :: rest => f x :: rest
  | i + 1, x :: rest => x :: updateAt f i rest

/-- Removal of the first error element of a parent node, the one
`parentNode.querySelector('.admin-form-error')` finds. -/
def removeFirstError (parent : Nat) : List ErrorElement → List ErrorElement
  | [] => []
  | e :: rest => if e.parent = parent then rest else e :: removeFirstError parent rest

/-- `this.form.querySelector('#id')`: the position of the first field of that id. -/
def findField (st : FormState) (id : String) : Option Nat :=
  st.fields.findIdx? (fun f => f.id == id)

/-- `clearFieldError(field)` for the field at position `i`. -/
def clearFieldError (st : FormState) (i : Nat) : FormState :=
  match st.fields[i]? with
  | none => st
  | some field =>
    { fields := updateAt unmark i st.fields
      errorElements := removeFirstError field.parent st.errorElements
      errors := st.errors.filter (fun kv => kv.1 != field.id) }

/-- `setFieldError(field, message)` for the field at position `i`. -/
def setFieldError (st : FormState) (i : Nat) (message : String) : FormState :=
  match st.fields[i]? with
  | none => st
  | some field =>
    let cleared := clearFieldError st i
    { fields := updateAt (mark (field.id ++ "-error")) i cleared.fields
      errorElements := cleared.errorElements
        ++ [{ parent := field.parent, id := field.id ++ "-error", text := message }]
      errors := cleared.errors ++ [(field.id, message)] }

/-- `clearAllErrors()`. -/
def clearAllErrors (st : FormState) : FormState :=
  { fields := st.fields.map (fun f => if f.borderRed then unmark f else f)
    errorElements := []
    errors := [] }

/-- `validateUsername()`. -/
def validateUsername (st : FormState) : Bool × FormState :=
  match findField st "username" with
  | none => (true, st)
  | some i =>
    let username := trim ((st.fields[i]?.map (fun f => f.value)).getD "")
    if username ≠ "" ∧ usernamePattern username = false then
      (false, setFieldError st i
        "اسم المستخدم يجب أن يكون بين 3-20 حرف ويحتوي على أحرف وأرقام وشرطة سفلية فقط")
    else (true, clearFieldError st i)

/-- `validateEmail()`. -/
def validateEmail (st : FormState) : Bool × FormState :=
  match findField st "email" with
  | none => (true, st)
  | some i =>
    let email := trim ((st.fields[i]?.map (fun f => f.value)).getD "")
    if email ≠ "" ∧ emailPattern email = false then
      (false, setFieldError st i "يرجى إدخال بريد إلكتروني صحيح")
    else (true, clearFieldError st i)

/-- `validatePassword()`. -/
def validatePassword (st : FormState) : Bool × FormState :=
  match findField st "password" with
  | none => (true, st)
  | some i =>
    let password := (st.fields[i]?.map (fun f => f.value)).getD ""
    if password ≠ "" ∧ jsLength password < 6 then
      (false, setFieldError st i "كلمة المرور يجب أن تكون 6 أحرف على الأقل")
    else (true, clearFieldError st i)

/-- `validatePasswordMatch()`. -/
def validatePasswordMatch (st : FormState) : Bool × FormState :=
  match findField st "password", findField st "confirm_password" with
  | some p, some c =>
    let password := (st.fields[p]?.map (fun f => f.value)).getD ""
    let confirmPassword := (st.fields[c]?.map (fun f => f.value)).getD ""
    if confirmPassword ≠ "" ∧ password ≠ confirmPassword then
      (false, setFieldError st c "كلمات المرور غير متطابقة")
    else (true, clearFieldError st c)
  | _, _ => (true, st)

/-- `validateRole()`. -/
def validateRole (st : FormState) : Bool × FormState :=
  match findField st "role" with
  | none => (true, st)
  | some i =>
    if (st.fields[i]?.map (fun f => f.value)).getD "" = "" then
      (false, setFieldError st i "يرجى اختيار دور المستخدم")
    else (true, clearFieldError st i)

/-- The loop of `validateForm` over the required fields, given by their positions:
a field whose trimmed value is empty gets the error and makes the form invalid. -/
def validateRequired (positions : List Nat) (acc : Bool × FormState) : Bool × FormState :=
  positions.foldl (fun acc i =>
    if trim ((acc.2.fields[i]?.map (fun f => f.value)).getD "") = "" then
      (false, setFieldError acc.2 i "هذا الحقل مطلوب")
    else acc) acc

/-- The positions of the fields `querySelectorAll('[required]')` returns. -/
def requiredPositions (st : FormState) : List Nat :=
  (List.range st.fields.length).filter (fun i =>
    (st.fields[i]?.map (fun f => f.required)).getD false)

/-- `validateForm()`: its result and the state it leaves. -/
def validateForm (st : FormState) : Bool × FormState :=
  let st0 := clearAllErrors st
  let r := validateRequired (requiredPositions st0) (true, st0)
  let u := validateUsername r.2
  let e := validateEmail u.2
  let p := validatePassword e.2
  let m := validatePasswordMatch p.2
  let o := validateRole m.2
  (r.1 && u.1 && e.1 && p.1 && m.1 && o.1, o.2)

/-- `showFirstError()`: the field it focuses, the first one of class
`border-red-300`, if any. -/
def showFirstError (st : FormState) : Option Field :=
  st.fields.find? (fun f => f.borderRed)

end AdminFormValidator

/-! ## Event lifetime -/

/-- A network or cache operation a listener started, with whether its promise is part
of the promise the listener gave to `event.waitUntil` or `event.respondWith`. -/
structure Started where
  call : Call
  attached : Bool
deriving DecidableEq, Repr

/-- A request a listener started, with whether its promise is part of the promise the
listener gave to `event.waitUntil`. -/
structure StartedRequest where
  request : OutRequest
  attached : Bool

/-- Whether a call is a network or cache operation: `skipWaiting` and `clients.claim`
are neither. -/
def Call.isOperation : Call → Bool
  | .skipWaiting => false
  | .clientsClaim => false
  | _ => true

/-- Whether a call of a fetch listener is chained into the promise given to
`event.respondWith`. In both workers that promise is the chain of `caches.match` and
`fetch` (`return fetch(...)`, `.then`, `.catch`), so the lookups and the fetch are in
it. `caches.open(CACHE_NAME).then(cache => cache.put(...))` is a statement of a `then`
callback that goes on to `return response`: its promise is dropped
(`src/app/static/js/sw.js` 224-230, `src/www/sw.js` 62-66 and 94-98). -/
def chainedInFetch : Call → Bool
  | .cachesOpen _ => false
  | .cachePut _ _ _ => false
  | _ => true

/-- The operations of a fetch event. -/
def fetchOperations (o : FetchOutcome) : List Started :=
  o.calls.map (fun c => { call := c, attached := chainedInFetch c })

/-- The operations of an install or activate event. The argument of `waitUntil` is
`caches.open(...).then(cache => cache.addAll(...)).catch(...)` in the install listeners
and `caches.keys().then(names => Promise.all(names.map(... caches.delete(name))))` in
the activate listeners: every cache operation of theirs is in it. -/
def lifecycleOperations (o : LifecycleOutcome) : List Started :=
  (o.calls.filter Call.isOperation).map (fun c => { call := c, attached := true })

/-- The requests of a sync or notificationclose event of `App`. The sync listener gives
the promise of `doBackgroundSync()`, which awaits its request, to `waitUntil`; the
notificationclose listener calls `fetch` and never `waitUntil`. A request is attached
exactly when `waitUntil` was called. -/
def eventOperations (o : EventOutcome) : List StartedRequest :=
  o.requests.map (fun r => { request := r, attached := o.waitUntil.isSome })

/-- The cache operations of a message event, each with whether it is attached: the
`caches.delete` of `CLEAR_CACHE` heads the chain given to `waitUntil`. -/
def messageOperations (o : MessageOutcome) : List (MessageCall × Bool) :=
  o.calls.filterMap (fun c =>
    match c with
    | .cachesDelete name => some (.cachesDelete name, o.waitUntil.isSome)
    | _ => none)

/-- Outcome of a sync event of `Www`: what `handleOfflineActions` did, and the settled
state of the promise given to `event.waitUntil` (`none` when it is not called). -/
structure ReplayEvent where
  fetched : List Entry
  written : Option (List Entry)
  waitUntil : Option (Settled Unit)
deriving DecidableEq, Repr

/-- The sync listener of `Www`: `handleOfflineActions()` is started, inside
`event.waitUntil`, when the tag is `background-sync`; its promise resolves, every error
being caught inside. -/
def Www.sync (tag : String) (stored : Except String (List Action))
    (replayOk : Entry → Bool) : Option ReplayEvent :=
  if tag = "background-sync" then
    (Www.handleOfflineActions stored replayOk).map (fun o =>
      { fetched := o.fetched, written := o.written, waitUntil := some (.resolved ()) })
  else
    some { fetched := [], written := none, waitUntil := none }

/-- The replay requests of a sync event of `Www`, each with whether it is attached:
`handleOfflineActions` awaits every `fetch`, and its promise is the one given to
`waitUntil`. -/
def replayOperations (o : ReplayEvent) : List (Entry × Bool) :=
  o.fetched.map (fun e => (e, o.waitUntil.isSome))

/-! ## Closed form of the replay loop -/

/-- What the replay loop leaves of the part of the array it has not visited yet: an
entry whose replay fails stays; after one whose replay succeeds, the entry behind it
has moved into the visited index and stays without being fetched. Proved equal to
`Www.replayLoop` in `replayLoop_closed`. -/
def kept (replayOk : Entry → Bool) : List Entry → List Entry
  | [] => []
  | [e] => if replayOk e then [] else [e]
  | e :: b :: rest =>
    if replayOk e then b :: kept replayOk rest else e :: kept replayOk (b :: rest)

/-- The entries the replay loop fetches out of the part of the array it has not
visited yet, in order. -/
def attempted (replayOk : Entry → Bool) : List Entry → List Entry
  | [] => []
  | [e] => [e]
  | e :: b :: rest =>
    if replayOk e then e :: attempted replayOk rest else e :: attempted replayOk (b :: rest)

/-! ## Sample inputs -/

/-- Location of a worker script. -/
def sampleSelf : URL :=
  { scheme := "https", host := "cmsvs.example", pathname := "/sw.js", search := "" }

/-- A network that answers every request with a same-origin 200 response. -/
def onlineNetwork : Network :=
  fun _ => .ok { status := 200, type := "basic", body := "fresh" }

/-- A network on which every fetch rejects. -/
def offlineNetwork : Network :=
  fun _ => .error "Failed to fetch"

/-- A navigation to a page of the site. -/
def pageNavigation : Request :=
  { method := "GET"
    url := { scheme := "https", host := "cmsvs.example", pathname := "/requests", search := "" }
    mode := "navigate" }

/-- A form submission to a path outside `/api/`. -/
def loginPost : Request :=
  { method := "POST"
    url := { scheme := "https", host := "cmsvs.example", pathname := "/login", search := "" }
    mode := "cors" }

/-- A script request for a static asset. -/
def scriptRequest : Request :=
  { method := "GET"
    url := { scheme := "https", host := "cmsvs.example", pathname := "/static/js/main.js",
             search := "" }
    mode := "no-cors" }

/-- A stored copy of the static asset. -/
def storedScript : Response :=
  { status := 200, type := "basic", body := "stored" }

/-- A data request to the API origin. -/
def apiRequest : Request :=
  { method := "GET"
    url := { scheme := "https", host := "www.webtado.live", pathname := "/api/requests",
             search := "?page=1" }
    mode := "cors" }

/-- A cross-origin answer of the API. -/
def apiResponse : Response :=
  { status := 200, type := "cors", body := "[1,2,3]" }

/-- An image request, neither a navigation nor an API call. -/
def imageRequest : Request :=
  { method := "GET"
    url := { scheme := "https", host := "cmsvs.example", pathname := "/uploads/photo.png",
             search := "" }
    mode := "no-cors" }

/-- A network on which only the fetch of `/index.html` fails. -/
def indexDownNetwork : Network :=
  fun r =>
    if r.url.pathname = "/index.html" then .error "Failed to fetch"
    else .ok { status := 200, type := "basic", body := "fresh" }

/-- Three queued actions. -/
def firstAction : Action :=
  { url := "/api/requests", method := "POST", headers := "json", body := "first" }

def secondAction : Action :=
  { url := "/api/requests/7", method := "PUT", headers := "json", body := "second" }

def thirdAction : Action :=
  { url := "/api/requests/9", method := "DELETE", headers := "json", body := "" }

/-- The payload `{"body":"X","data":{"url":"/y"}}`. -/
def samplePayload : Json :=
  .obj [("body", .str "X"), ("data", .obj [("url", .str "/y")])]

/-- A resolver of root-relative URL strings against the origin of `sampleSelf`. -/
def sampleResolve : Json → URL
  | .str s => { scheme := "https", host := "cmsvs.example", pathname := s, search := "" }
  | _ => { scheme := "https", host := "cmsvs.example", pathname := "/", search := "" }

/-- Two open windows: one of another origin, one of the site. -/
def sampleClients : List WindowClient :=
  [ { id := 1, url := { scheme := "https", host := "other.example", pathname := "/", search := "" } },
    { id := 2, url := { scheme := "https", host := "cmsvs.example", pathname := "/home",
                        search := "" } } ]

/-- A field without error marking. -/
def plainField (id value : String) (parent : Nat) : AdminFormValidator.Field :=
  { id := id, value := value, required := true, parent := parent, borderRed := false,
    borderGray := true, ariaInvalid := false, describedBy := none }

/-- The new user form with every field filled in correctly but the user name, which
holds blanks only. -/
def formWithoutUsername : AdminFormValidator.FormState :=
  { fields :=
      [ plainField "username" "   " 1,
        plainField "email" "clerk@cmsvs.example" 2,
        plainField "password" "secret1" 3,
        plainField "confirm_password" "secret1" 4,
        plainField "role" "user" 5 ]
    errorElements := []
    errors := [] }

/-- An ok answer of status 206 (partial content). -/
def partialContent : Response :=
  { status := 206, type := "cors", body := "[1,2" }

/-- A same-origin 200 answer that carries `Vary: *`. -/
def varyingScript : Response :=
  { status := 200, type := "basic", body := "fresh", varyStar := true }

/-! ## Strings -/

theorem startsWith_append (p r : String) : startsWith (p ++ r) p = true := by
  unfold startsWith
  simp [String.toList, String.data_append]

theorem href_eq (u : URL) :
    u.href = u.scheme ++ ("://" ++ u.host ++ u.pathname ++ u.search) := by
  unfold URL.href
  apply String.ext
  simp [String.data_append, List.append_assoc]

/-- The serialised form of an http or https URL starts with `http`. -/
theorem startsWith_http_of_scheme (u : URL)
    (h : u.scheme = "http" ∨ u.scheme = "https") : startsWith u.href "http" = true := by
  rcases h with h | h
  · rw [href_eq, h]; exact startsWith_append _ _
  · have hs : u.href = "http" ++ ("s://" ++ u.host ++ u.pathname ++ u.search) := by
      rw [href_eq, h]
      apply String.ext
      simp [String.data_append, List.append_assoc]
    rw [hs]; exact startsWith_append _ _

/-! ## Fetch arbitration -/

/-- C1. In both workers a GET http(s) request handled by the cache-first policy (every
intercepted request in `App`, a request not routed to the API in `Www`) for which
`caches.match` finds an entry is answered with exactly that entry, and no network fetch
is issued; the storage is left as it was. -/
theorem cache_first_hit (self : URL) (net : Network) (s : CacheStorage) (req : Request)
    (cached : Response) (hget : req.method = "GET")
    (hscheme : req.url.scheme = "http" ∨ req.url.scheme = "https")
    (hhit : cachesMatch s req = some cached) :
    ((App.fetchHandler self net s req).respondWith = some (.resolved (some cached)) ∧
      (∀ r, Call.fetch r ∉ (App.fetchHandler self net s req).calls) ∧
      (App.fetchHandler self net s req).storage = s) ∧
    (Www.isApiRequest req.url = false →
      (Www.fetchHandler self net s req).respondWith = some (.resolved (some cached)) ∧
      (∀ r, Call.fetch r ∉ (Www.fetchHandler self net s req).calls) ∧
      (Www.fetchHandler self net s req).storage = s) := by
  have hp := startsWith_http_of_scheme req.url hscheme
  refine ⟨?_, ?_⟩
  · simp [App.fetchHandler, hget, hp, hhit]
  · intro hapi
    simp [Www.fetchHandler, hapi, hhit]

theorem cache_first_hit_witness :
    ((App.fetchHandler sampleSelf offlineNetwork
        [(App.CACHE_NAME, [(scriptRequest.url.href, storedScript)])]
        scriptRequest).respondWith = some (.resolved (some storedScript)) ∧
      (∀ r, Call.fetch r ∉ (App.fetchHandler sampleSelf offlineNetwork
        [(App.CACHE_NAME, [(scriptRequest.url.href, storedScript)])] scriptRequest).calls) ∧
      (App.fetchHandler sampleSelf offlineNetwork
        [(App.CACHE_NAME, [(scriptRequest.url.href, storedScript)])] scriptRequest).storage
        = [(App.CACHE_NAME, [(scriptRequest.url.href, storedScript)])]) ∧
    (Www.isApiRequest scriptRequest.url = false →
      (Www.fetchHandler sampleSelf offlineNetwork
        [(App.CACHE_NAME, [(scriptRequest.url.href, storedScript)])]
        scriptRequest).respondWith = some (.resolved (some storedScript)) ∧
      (∀ r, Call.fetch r ∉ (Www.fetchHandler sampleSelf offlineNetwork
        [(App.CACHE_NAME, [(scriptRequest.url.href, storedScript)])] scriptRequest).calls) ∧
      (Www.fetchHandler sampleSelf offlineNetwork
        [(App.CACHE_NAME, [(scriptRequest.url.href, storedScript)])] scriptRequest).storage
        = [(App.CACHE_NAME, [(scriptRequest.url.href, storedScript)])]) :=
  cache_first_hit sampleSelf offlineNetwork
    [(App.CACHE_NAME, [(scriptRequest.url.href, storedScript)])] scriptRequest storedScript
    (by decide) (by decide) (by decide)

/-! ## Cache lookups -/

theorem lookup_store (c : Cache) (key : String) (resp : Response) :
    (Cache.store c key resp).lookup key = some resp := by
  unfold Cache.store
  induction c with
  | nil => simp [List.lookup]
  | cons e t ih =>
    rw [List.filter_cons]
    by_cases h : e.1 = key
    · simpa [h] using ih
    · have hk : (key == e.1) = false := by
        simpa using fun h2 : key = e.1 => h h2.symm
      simpa [h, List.lookup, hk] using ih

/-- When every element yields either nothing or `v`, and one yields `v`,
`findSome?` yields `v`. -/
theorem findSome_of_forall {α β : Type} (f : α → Option β) (v : β) (l : List α)
    (hall : ∀ x ∈ l, f x = none ∨ f x = some v) (hex : ∃ x ∈ l, f x = some v) :
    l.findSome? f = some v := by
  induction l with
  | nil => obtain ⟨x, hx, _⟩ := hex; simp at hx
  | cons a t ih =>
    rcases hall a (by simp) with ha | ha
    · have hex2 : ∃ x ∈ t, f x = some v := by
        obtain ⟨x, hx, hfx⟩ := hex
        rcases List.mem_cons.mp hx with rfl | hx
        · rw [ha] at hfx; cases hfx
        · exact ⟨x, hx, hfx⟩
      simp [List.findSome?, ha]
      exact ih (fun x hx => hall x (List.mem_cons_of_mem _ hx)) hex2
    · simp [List.findSome?, ha]

theorem cachesOpen_has (s : CacheStorage) (name : String) :
    ∃ nc ∈ cachesOpen s name, nc.1 = name := by
  unfold cachesOpen
  by_cases h : s.any (fun nc => nc.1 == name) = true
  · rw [if_pos h]
    obtain ⟨nc, hnc, heq⟩ := List.any_eq_true.mp h
    exact ⟨nc, hnc, by simpa using heq⟩
  · rw [if_neg h]
    exact ⟨(name, []), by simp, rfl⟩

theorem mem_cachesOpen (s : CacheStorage) (name : String) (nc : String × Cache)
    (h : nc ∈ cachesOpen s name) : nc ∈ s ∨ nc = (name, []) := by
  unfold cachesOpen at h
  by_cases hany : s.any (fun nc => nc.1 == name) = true
  · rw [if_pos hany] at h; exact Or.inl h
  · rw [if_neg hany] at h
    rcases List.mem_append.mp h with h | h
    · exact Or.inl h
    · exact Or.inr (by simpa using h)

/-- A pair the Cache API takes has a GET request. -/
theorem cacheable_get (r : Request) (resp : Response) (h : cacheable r resp = true) :
    r.method = "GET" := by
  simp only [cacheable, Bool.and_eq_true, beq_iff_eq] at h
  exact h.1.1.1

/-- The Cache API takes no request whose method is not GET. -/
theorem not_cacheable_of_method (r : Request) (resp : Response) (h : r.method ≠ "GET") :
    cacheable r resp = false := by
  cases hc : cacheable r resp with
  | false => rfl
  | true => exact absurd (cacheable_get r resp hc) h

/-- After a put that the Cache API takes in the opened current cache, `caches.match`
yields the stored response, provided no cache of another name holds an entry for the
request. -/
theorem cachesMatch_after_put (s : CacheStorage) (name : String) (req : Request)
    (resp : Response) (hc : cacheable req resp = true)
    (hstale : ∀ nc ∈ s, nc.1 ≠ name → cacheMatch nc.2 req = none) :
    cachesMatch (cachePut (cachesOpen s name) name req resp) req = some resp := by
  have hget := cacheable_get req resp hc
  unfold cachesMatch cachePut
  rw [if_pos hc]
  apply findSome_of_forall
  · intro x hx
    obtain ⟨nc, hnc, rfl⟩ := List.mem_map.mp hx
    by_cases hn : nc.1 = name
    · right
      simp [hn, cacheMatch, hget, lookup_store]
    · left
      rw [if_neg hn]
      rcases mem_cachesOpen s name nc hnc with h | h
      · exact hstale nc h hn
      · exact absurd (by rw [h]) hn
  · obtain ⟨nc, hnc, hn⟩ := cachesOpen_has s name
    refine ⟨_, List.mem_map.mpr ⟨nc, hnc, rfl⟩, ?_⟩
    simp [hn, cacheMatch, hget, lookup_store]

/-- The `Www` fetch handler creates no cache of another name: when every cache bears
the current name before the event, every cache does after it. -/
theorem Www.fetchHandler_names (self : URL) (net : Network) (s : CacheStorage)
    (req : Request) (hs : ∀ nc ∈ s, nc.1 = Www.CACHE_NAME) :
    ∀ nc ∈ (Www.fetchHandler self net s req).storage, nc.1 = Www.CACHE_NAME := by
  have hput : ∀ resp, ∀ nc ∈ cachePut (cachesOpen s Www.CACHE_NAME) Www.CACHE_NAME req resp,
      nc.1 = Www.CACHE_NAME := by
    intro resp nc hnc
    unfold cachePut at hnc
    have hopen : ∀ x ∈ cachesOpen s Www.CACHE_NAME, x.1 = Www.CACHE_NAME := by
      intro x hx
      rcases mem_cachesOpen s _ x hx with h | h
      · exact hs x h
      · rw [h]
    split at hnc
    · obtain ⟨nc0, h0, rfl⟩ := List.mem_map.mp hnc
      split
      · assumption
      · exact hopen nc0 h0
    · exact hopen nc hnc
  unfold Www.fetchHandler
  repeat' split
  all_goals first
    | exact hs
    | exact hput _

/-- C2 (as amended). In `Www`, when the network answers a GET request routed to the API
policy with an ok response, that response is returned and `cache.put` is called with it
on the current cache. When the Cache API takes it (an http(s) URL, a status other than
206, no `Vary: *`), every cache of the current name then holds it under the request;
and the same request made next while the network fails is answered with the stored
response provided no cache of another name holds an entry for the request, the fallback
being `caches.match` over all the caches. -/
theorem api_round_trip (self : URL) (net offline : Network) (s : CacheStorage)
    (req : Request) (response : Response) (reason : String)
    (hget : req.method = "GET") (hapi : Www.isApiRequest req.url = true)
    (hnet : net req = .ok response) (hok : response.ok = true)
    (hoff : offline req = .error reason) :
    (Www.fetchHandler self net s req).respondWith = some (.resolved (some response)) ∧
    Call.cachePut Www.CACHE_NAME req response ∈ (Www.fetchHandler self net s req).calls ∧
    (cacheable req response = true →
      (∃ nc ∈ (Www.fetchHandler self net s req).storage, nc.1 = Www.CACHE_NAME) ∧
      (∀ nc ∈ (Www.fetchHandler self net s req).storage, nc.1 = Www.CACHE_NAME →
        cacheMatch nc.2 req = some response) ∧
      ((∀ nc ∈ s, nc.1 ≠ Www.CACHE_NAME → cacheMatch nc.2 req = none) →
        (Www.fetchHandler self offline (Www.fetchHandler self net s req).storage
            req).respondWith
          = some (.resolved (some response)))) := by
  have hst : (Www.fetchHandler self net s req).storage
      = cachePut (cachesOpen s Www.CACHE_NAME) Www.CACHE_NAME req response := by
    simp [Www.fetchHandler, hapi, hnet, hok, hget]
  refine ⟨?_, ?_, ?_⟩
  · simp [Www.fetchHandler, hapi, hnet, hok, hget]
  · simp [Www.fetchHandler, hapi, hnet, hok, hget]
  · intro hc
    refine ⟨?_, ?_, ?_⟩
    · rw [hst]
      obtain ⟨nc, hnc, hn⟩ := cachesOpen_has s Www.CACHE_NAME
      refine ⟨(nc.1, Cache.store nc.2 req.url.href response), ?_, hn⟩
      unfold cachePut
      rw [if_pos hc]
      exact List.mem_map.mpr ⟨nc, hnc, by simp [hn]⟩
    · rw [hst]
      intro nc hnc hn
      unfold cachePut at hnc
      rw [if_pos hc] at hnc
      obtain ⟨nc0, _, rfl⟩ := List.mem_map.mp hnc
      by_cases h0 : nc0.1 = Www.CACHE_NAME
      · simp [h0, cacheMatch, hget, lookup_store]
      · rw [if_neg h0] at hn; exact absurd hn h0
    · intro hstale
      have hmatch := cachesMatch_after_put s Www.CACHE_NAME req response hc hstale
      rw [hst]
      simp [Www.fetchHandler, hapi, hoff, hmatch]

theorem api_round_trip_witness :
    (Www.fetchHandler sampleSelf (fun _ => .ok apiResponse)
        [(Www.CACHE_NAME, [(apiRequest.url.href, storedScript)])] apiRequest).respondWith
      = some (.resolved (some apiResponse)) ∧
    (Www.fetchHandler sampleSelf offlineNetwork
        (Www.fetchHandler sampleSelf (fun _ => .ok apiResponse)
          [(Www.CACHE_NAME, [(apiRequest.url.href, storedScript)])] apiRequest).storage
        apiRequest).respondWith
      = some (.resolved (some apiResponse)) :=
  have h := api_round_trip sampleSelf (fun _ => .ok apiResponse) offlineNetwork
    [(Www.CACHE_NAME, [(apiRequest.url.href, storedScript)])] apiRequest apiResponse
    "Failed to fetch" (by decide) (by decide) rfl (by decide) rfl
  ⟨h.1, (h.2.2 (by decide)).2.2 (by decide)⟩

/-- C2, counterexample. Two GET requests to the API answered with an ok response. The
answer of status 206 is returned, but `cache.put` rejects it: nothing is stored and the
same request made while the network fails is rejected. With a stale cache left by an
activation whose `caches.delete` rejected, the answer is stored in the current cache,
and the same request made while the network fails is answered with the entry of the
stale cache, not with the stored response. -/
theorem api_round_trip_broken :
    partialContent.ok = true ∧
    (Www.fetchHandler sampleSelf (fun _ => .ok partialContent) [(Www.CACHE_NAME, [])]
        apiRequest).respondWith = some (.resolved (some partialContent)) ∧
    (Www.fetchHandler sampleSelf (fun _ => .ok partialContent) [(Www.CACHE_NAME, [])]
        apiRequest).storage = [(Www.CACHE_NAME, [])] ∧
    (Www.fetchHandler sampleSelf offlineNetwork [(Www.CACHE_NAME, [])]
        apiRequest).respondWith = some (.rejected Www.noCachedResponse) ∧
    (Www.activate true (fun _ => false)
        [("cmsvs-mobile-v0", [(apiRequest.url.href, storedScript)]),
         (Www.CACHE_NAME, [])]).storage
      = [("cmsvs-mobile-v0", [(apiRequest.url.href, storedScript)]), (Www.CACHE_NAME, [])] ∧
    (Www.fetchHandler sampleSelf (fun _ => .ok apiResponse)
        [("cmsvs-mobile-v0", [(apiRequest.url.href, storedScript)]), (Www.CACHE_NAME, [])]
        apiRequest).storage
      = [("cmsvs-mobile-v0", [(apiRequest.url.href, storedScript)]),
         (Www.CACHE_NAME, [(apiRequest.url.href, apiResponse)])] ∧
    (Www.fetchHandler sampleSelf offlineNetwork
        [("cmsvs-mobile-v0", [(apiRequest.url.href, storedScript)]),
         (Www.CACHE_NAME, [(apiRequest.url.href, apiResponse)])]
        apiRequest).respondWith = some (.resolved (some storedScript)) ∧
    storedScript ≠ apiResponse := by
  decide

/-- C3 (as amended). In both workers, for a navigation-mode GET http(s) request whose
network fetch fails and for which the cache holds no entry, the promise given to
`respondWith` does not reject: it is fulfilled with the result of looking the offline
document up in the cache (`/offline.html` in `App`, `/index.html` in `Www`), hence with
that document whenever the cache holds it. -/
theorem navigation_fallback (self : URL) (net : Network) (s : CacheStorage)
    (req : Request) (reason : String) (hget : req.method = "GET")
    (hscheme : req.url.scheme = "http" ∨ req.url.scheme = "https")
    (hnav : req.mode = "navigate") (hfail : net req = .error reason)
    (hmiss : cachesMatch s req = none) :
    (App.fetchHandler self net s req).respondWith
      = some (.resolved (cachesMatchPath self s App.offlineDocument)) ∧
    (Www.fetchHandler self net s req).respondWith
      = some (.resolved (cachesMatchPath self s Www.offlineDocument)) ∧
    (∀ doc, cachesMatchPath self s App.offlineDocument = some doc →
      (App.fetchHandler self net s req).respondWith = some (.resolved (some doc))) ∧
    (∀ doc, cachesMatchPath self s Www.offlineDocument = some doc →
      (Www.fetchHandler self net s req).respondWith = some (.resolved (some doc))) := by
  have hp := startsWith_http_of_scheme req.url hscheme
  have happ : (App.fetchHandler self net s req).respondWith
      = some (.resolved (cachesMatchPath self s App.offlineDocument)) := by
    simp [App.fetchHandler, hget, hp, hmiss, hfail, hnav]
  have hwww : (Www.fetchHandler self net s req).respondWith
      = some (.resolved (cachesMatchPath self s Www.offlineDocument)) := by
    unfold Www.fetchHandler
    by_cases hapi : Www.isApiRequest req.url = true
    · simp [hapi, hfail, hmiss, hnav]
    · simp [hapi, hfail, hmiss, hnav]
  refine ⟨happ, hwww, ?_, ?_⟩
  · intro doc hdoc; rw [happ, hdoc]
  · intro doc hdoc; rw [hwww, hdoc]

theorem navigation_fallback_witness :
    (App.fetchHandler sampleSelf offlineNetwork
        (Www.install sampleSelf true onlineNetwork []).storage pageNavigation).respondWith
      = some (.resolved (cachesMatchPath sampleSelf
          (Www.install sampleSelf true onlineNetwork []).storage App.offlineDocument)) ∧
    (Www.fetchHandler sampleSelf offlineNetwork
        (Www.install sampleSelf true onlineNetwork []).storage pageNavigation).respondWith
      = some (.resolved (some { status := 200, type := "basic", body := "fresh" })) :=
  have h := navigation_fallback sampleSelf offlineNetwork
    (Www.install sampleSelf true onlineNetwork []).storage pageNavigation "Failed to fetch"
    (by decide) (by decide) (by decide) rfl (by decide)
  ⟨h.1, h.2.2.2 _ (by decide)⟩

/-- C3, counterexample. A navigation in `Www` after an install whose population failed
(the network was down): the request is a navigation-mode GET, the fetch fails, the cache
holds no entry for it, and the promise given to `respondWith` is fulfilled with
`undefined`, which is no response. -/
theorem navigation_fallback_undefined :
    pageNavigation.method = "GET" ∧ pageNavigation.mode = "navigate" ∧
    offlineNetwork pageNavigation = .error "Failed to fetch" ∧
    (Www.install sampleSelf true offlineNetwork []).storage = [(Www.CACHE_NAME, [])] ∧
    cachesMatch [(Www.CACHE_NAME, [])] pageNavigation = none ∧
    (Www.fetchHandler sampleSelf offlineNetwork [(Www.CACHE_NAME, [])]
        pageNavigation).respondWith = some (.resolved none) :=
  ⟨by decide, by decide, rfl, by decide, by decide, by decide⟩

/-- C4 (as amended). In `App`, a fetch event whose request method is not GET or whose
URL does not start with `http` is passed through: `respondWith` is not called, no
platform call is issued and the storage is unchanged. `Www` has no such guard: it
calls `respondWith` for every request, and for a request whose method is not GET it
adds no entry to any cache (at most the empty current cache is created). -/
theorem pass_through (self : URL) (net : Network) (s : CacheStorage) (req : Request) :
    ((req.method ≠ "GET" ∨ startsWith req.url.href "http" = false) →
      (App.fetchHandler self net s req).respondWith = none ∧
      (App.fetchHandler self net s req).calls = [] ∧
      (App.fetchHandler self net s req).storage = s) ∧
    (Www.fetchHandler self net s req).respondWith ≠ none ∧
    (req.method ≠ "GET" →
      (Www.fetchHandler self net s req).storage = s ∨
      (Www.fetchHandler self net s req).storage = cachesOpen s Www.CACHE_NAME) := by
  refine ⟨?_, ?_, ?_⟩
  · intro h
    unfold App.fetchHandler
    rcases h with h | h
    · simp [h]
    · by_cases hm : req.method = "GET" <;> simp [hm, h]
  · unfold Www.fetchHandler
    repeat' split
    all_goals simp
  · intro hm
    have hmatch : cachesMatch s req = none := by
      unfold cachesMatch
      rw [List.findSome?_eq_none_iff]
      intro x _
      simp [cacheMatch, hm]
    have hc : ∀ resp, cacheable req resp = false :=
      fun resp => not_cacheable_of_method req resp hm
    unfold Www.fetchHandler
    simp only [hmatch]
    repeat' split
    all_goals simp [cachePut, hc, hm]

theorem pass_through_witness :
    (App.fetchHandler sampleSelf onlineNetwork [] loginPost).respondWith = none ∧
    (App.fetchHandler sampleSelf onlineNetwork [] loginPost).calls = [] ∧
    (App.fetchHandler sampleSelf onlineNetwork [] loginPost).storage = [] :=
  (pass_through sampleSelf onlineNetwork [] loginPost).1 (Or.inl (by decide))

/-- C4, counterexample. `Www` answers a POST itself: the method is not GET and
`respondWith` is called. -/
theorem www_intercepts_post :
    loginPost.method ≠ "GET" ∧
    (Www.fetchHandler sampleSelf onlineNetwork [] loginPost).respondWith
      = some (.resolved (some { status := 200, type := "basic", body := "fresh" })) := by
  decide

/-- C7. In both workers, for an intercepted request (one for which `respondWith` is
called) whose mode is not `navigate`, when the network fetch fails and the cache holds
no entry for the request, the promise given to `respondWith` rejects: with the fetch
error in `App`, with the error the handler throws in `Www`. -/
theorem failure_propagates (self : URL) (net : Network) (s : CacheStorage)
    (req : Request) (reason : String) (hmode : req.mode ≠ "navigate")
    (hfail : net req = .error reason) (hmiss : cachesMatch s req = none) :
    ((App.fetchHandler self net s req).respondWith ≠ none →
      (App.fetchHandler self net s req).respondWith = some (.rejected reason)) ∧
    (Www.fetchHandler self net s req).respondWith
      = some (.rejected Www.noCachedResponse) := by
  refine ⟨?_, ?_⟩
  · unfold App.fetchHandler
    by_cases hm : req.method = "GET"
    · by_cases hp : startsWith req.url.href "http" = true
      · simp [hm, hp, hmiss, hfail, hmode]
      · simp [hm, hp]
    · simp [hm]
  · unfold Www.fetchHandler
    by_cases hapi : Www.isApiRequest req.url = true
    · simp [hapi, hfail, hmiss, hmode]
    · simp [hapi, hfail, hmiss, hmode]

theorem failure_propagates_witness :
    (App.fetchHandler sampleSelf offlineNetwork [] imageRequest).respondWith
      = some (.rejected "Failed to fetch") ∧
    (Www.fetchHandler sampleSelf offlineNetwork [] imageRequest).respondWith
      = some (.rejected Www.noCachedResponse) :=
  have h := failure_propagates sampleSelf offlineNetwork [] imageRequest "Failed to fetch"
    (by decide) rfl (by decide)
  ⟨h.1 (by decide), h.2⟩

/-! ## Cache writes of the fetch handlers -/

/-- Every `cache.put` the `App` fetch handler calls is for the GET request of the event
and a response of status 200 and type `basic`. -/
theorem App.put_call_valid (self : URL) (net : Network) (s : CacheStorage) (req : Request)
    (name : String) (r : Request) (resp : Response)
    (h : Call.cachePut name r resp ∈ (App.fetchHandler self net s req).calls) :
    r.method = "GET" ∧ resp.status = 200 ∧ resp.type = "basic" := by
  unfold App.fetchHandler at h
  by_cases hm : req.method = "GET"
  · by_cases hp : startsWith req.url.href "http" = true
    · simp only [hm, hp] at h
      cases hc : cachesMatch s req with
      | some cached => simp [hc] at h
      | none =>
        cases hn : net req with
        | error e =>
          by_cases hnav : req.mode = "navigate" <;> simp [hc, hn, hnav] at h
        | ok response =>
          by_cases hv : response.status = 200 ∧ response.type = "basic"
          · by_cases hi : includes req.url.href "/static/" = true
            · simp [hc, hn, hv.1, hv.2, hi] at h
              obtain ⟨_, hr, hresp⟩ := h
              subst hr; subst hresp
              exact ⟨hm, hv.1, hv.2⟩
            · simp [hc, hn, hv.1, hv.2, hi] at h
          · have hv2 : (response.status ≠ 200 ∨ response.type ≠ "basic") := by
              by_contra hcon
              push_neg at hcon
              exact hv hcon
            rcases hv2 with hv2 | hv2
            · simp [hc, hn, hv2] at h
            · simp [hc, hn, hv2] at h
    · simp [hm, hp] at h
  · simp [hm] at h

/-- Every `cache.put` the `Www` fetch handler calls is for the request of the event and
an ok response. -/
theorem Www.put_call_ok (self : URL) (net : Network) (s : CacheStorage) (req : Request)
    (name : String) (r : Request) (resp : Response)
    (h : Call.cachePut name r resp ∈ (Www.fetchHandler self net s req).calls) :
    r = req ∧ resp.ok = true := by
  unfold Www.fetchHandler at h
  by_cases hapi : Www.isApiRequest req.url = true
  · simp only [hapi, if_true] at h
    cases hn : net req with
    | error e =>
      cases hc : cachesMatch s req with
      | some cached => simp [hn, hc] at h
      | none => by_cases hnav : req.mode = "navigate" <;> simp [hn, hc, hnav] at h
    | ok response =>
      by_cases hv : (response.ok && req.method == "GET") = true
      · simp [hn, hv] at h
        obtain ⟨_, hr, hresp⟩ := h
        subst hr; subst hresp
        simp at hv
        exact ⟨rfl, hv.1⟩
      · simp [hn, hv] at h
  · simp only [hapi] at h
    cases hc : cachesMatch s req with
    | some cached => simp [hc] at h
    | none =>
      cases hn : net req with
      | error e => by_cases hnav : req.mode = "navigate" <;> simp [hn, hc, hnav] at h
      | ok response =>
        by_cases hv : response.ok = true
        · simp [hn, hc, hv] at h
          obtain ⟨_, hr, hresp⟩ := h
          subst hr; subst hresp
          exact ⟨rfl, hv⟩
        · simp [hn, hc, hv] at h

/-- C5, the failing input evaluated. In `Www` a POST to a path outside `/api/` that
the network answers with status 200 makes the static branch call `cache.put` with the
POST request; the Cache API rejects that call, so the storage gains no entry. -/
theorem www_static_put_for_post :
    loginPost.method = "POST" ∧ Www.isApiRequest loginPost.url = false ∧
    Call.cachePut Www.CACHE_NAME loginPost { status := 200, type := "basic", body := "fresh" }
      ∈ (Www.fetchHandler sampleSelf onlineNetwork [(Www.CACHE_NAME, [])] loginPost).calls ∧
    (Www.fetchHandler sampleSelf onlineNetwork [(Www.CACHE_NAME, [])] loginPost).storage
      = [(Www.CACHE_NAME, [])] := by
  decide

/-- After a put that the Cache API takes, every cache of the name holds the response
under the request. -/
theorem cachePut_holds (st : CacheStorage) (name : String) (req : Request)
    (resp : Response) (hc : cacheable req resp = true) :
    ∀ nc ∈ cachePut st name req resp, nc.1 = name → cacheMatch nc.2 req = some resp := by
  have hget := cacheable_get req resp hc
  intro nc hnc hn
  unfold cachePut at hnc
  rw [if_pos hc] at hnc
  obtain ⟨nc0, _, rfl⟩ := List.mem_map.mp hnc
  by_cases h0 : nc0.1 = name
  · simp [h0, cacheMatch, hget, lookup_store]
  · rw [if_neg h0] at hn; exact absurd hn h0

/-- C6 (as amended). The `App` fetch handler never stores a response whose type is not
`basic`: each of its `cache.put` calls carries a response of type `basic`, and when the
network response has another type the storage is left unchanged. `Www` has no check of
the type: each response it passes to `cache.put` is an ok response, and an ok answer of
any type to a GET request that is routed to the API or misses the cache is passed to
`cache.put` and, when the Cache API takes it, held by the current cache. -/
theorem stored_response_type (self : URL) (net : Network) (s : CacheStorage)
    (req : Request) :
    (∀ name r resp, Call.cachePut name r resp ∈ (App.fetchHandler self net s req).calls →
      resp.type = "basic") ∧
    (∀ resp, net req = .ok resp → resp.type ≠ "basic" →
      (App.fetchHandler self net s req).storage = s) ∧
    (∀ name r resp, Call.cachePut name r resp ∈ (Www.fetchHandler self net s req).calls →
      resp.ok = true) ∧
    (∀ resp, net req = .ok resp → resp.ok = true → req.method = "GET" →
      (Www.isApiRequest req.url = true ∨ cachesMatch s req = none) →
      Call.cachePut Www.CACHE_NAME req resp ∈ (Www.fetchHandler self net s req).calls ∧
      (cacheable req resp = true →
        ∀ nc ∈ (Www.fetchHandler self net s req).storage, nc.1 = Www.CACHE_NAME →
          cacheMatch nc.2 req = some resp)) := by
  refine ⟨?_, ?_, ?_, ?_⟩
  · intro name r resp h
    exact (App.put_call_valid self net s req name r resp h).2.2
  · intro resp hn ht
    unfold App.fetchHandler
    by_cases hm : req.method = "GET"
    · by_cases hp : startsWith req.url.href "http" = true
      · cases hc : cachesMatch s req with
        | some cached => simp [hm, hp, hc]
        | none => simp [hm, hp, hc, hn, ht]
      · simp [hm, hp]
    · simp [hm]
  · intro name r resp h
    exact (Www.put_call_ok self net s req name r resp h).2
  · intro resp hn hok hget hroute
    have hst : (Www.fetchHandler self net s req).storage
        = cachePut (cachesOpen s Www.CACHE_NAME) Www.CACHE_NAME req resp ∧
        Call.cachePut Www.CACHE_NAME req resp ∈ (Www.fetchHandler self net s req).calls := by
      by_cases hapi : Www.isApiRequest req.url = true
      · simp [Www.fetchHandler, hapi, hn, hok, hget]
      · rcases hroute with h | hmiss
        · exact absurd h hapi
        · simp [Www.fetchHandler, hapi, hmiss, hn, hok]
    refine ⟨hst.2, ?_⟩
    intro hc
    rw [hst.1]
    exact cachePut_holds _ _ req resp hc

theorem stored_response_type_witness :
    (App.fetchHandler sampleSelf (fun _ => .ok apiResponse) [] scriptRequest).storage = [] ∧
    ({ status := 200, type := "basic", body := "fresh" } : Response).type = "basic" ∧
    Call.cachePut Www.CACHE_NAME apiRequest apiResponse
      ∈ (Www.fetchHandler sampleSelf (fun _ => .ok apiResponse) [] apiRequest).calls :=
  have h := stored_response_type sampleSelf (fun _ => .ok apiResponse) [] scriptRequest
  have h2 := stored_response_type sampleSelf onlineNetwork [] scriptRequest
  have h3 := stored_response_type sampleSelf (fun _ => .ok apiResponse) [] apiRequest
  ⟨h.2.1 apiResponse rfl (by decide),
   h2.1 App.CACHE_NAME scriptRequest { status := 200, type := "basic", body := "fresh" }
     (by decide),
   (h3.2.2.2 apiResponse rfl (by decide) (by decide) (Or.inl (by decide))).1⟩

/-- C6, counterexample. `Www` stores a cross-origin response: the answer of the API
has type `cors`, `cache.put` is called with it, and `caches.match` then finds it. -/
theorem www_stores_cors :
    apiResponse.type ≠ "basic" ∧
    Call.cachePut Www.CACHE_NAME apiRequest apiResponse
      ∈ (Www.fetchHandler sampleSelf (fun _ => .ok apiResponse) [] apiRequest).calls ∧
    cachesMatch (Www.fetchHandler sampleSelf (fun _ => .ok apiResponse) []
      apiRequest).storage apiRequest = some apiResponse := by
  decide

/-! ## Lifecycle -/

/-- When `caches.keys()` resolves and every deletion of a stale cache resolves, the
promise of the activate handler resolves. -/
theorem activateHandler_resolves (name : String) (deleteOk : String → Bool)
    (s : CacheStorage) (hdel : ∀ nc ∈ s, nc.1 ≠ name → deleteOk nc.1 = true) :
    (activateHandler name true deleteOk s).waitUntil = .resolved () := by
  have hall : ((s.map (fun nc => nc.1)).filter (fun n => n != name)).all deleteOk = true := by
    rw [List.all_eq_true]
    intro n hn
    obtain ⟨hmem, hne⟩ := List.mem_filter.mp hn
    obtain ⟨nc, hnc, rfl⟩ := List.mem_map.mp hmem
    exact hdel nc hnc (by simpa using hne)
  simp [activateHandler, hall]

/-- When the promise of the activate handler has resolved, every remaining cache bears
the current name, and the remaining caches are exactly those of the current name. -/
theorem activateHandler_clean (name : String) (keysOk : Bool) (deleteOk : String → Bool)
    (s : CacheStorage)
    (h : (activateHandler name keysOk deleteOk s).waitUntil = .resolved ()) :
    (∀ nc ∈ (activateHandler name keysOk deleteOk s).storage, nc.1 = name) ∧
    (activateHandler name keysOk deleteOk s).storage = s.filter (fun nc => nc.1 == name) := by
  unfold activateHandler at h ⊢
  cases keysOk with
  | false => simp at h
  | true =>
    simp only [if_true] at h ⊢
    by_cases hall :
        ((s.map (fun nc => nc.1)).filter (fun n => n != name)).all deleteOk = true
    · have hdel : ∀ nc ∈ s, nc.1 ≠ name → deleteOk nc.1 = true := by
        intro nc hnc hne
        rw [List.all_eq_true] at hall
        exact hall nc.1 (List.mem_filter.mpr ⟨List.mem_map.mpr ⟨nc, hnc, rfl⟩, by simpa using hne⟩)
      have hfilter : s.filter (fun nc => nc.1 == name || !deleteOk nc.1)
          = s.filter (fun nc => nc.1 == name) := by
        apply List.filter_congr
        intro nc hnc
        by_cases hn : nc.1 = name
        · simp [hn]
        · simp [hn, hdel nc hnc hn]
      refine ⟨?_, hfilter⟩
      intro nc hnc
      rw [hfilter] at hnc
      simpa using (List.mem_filter.mp hnc).2
    · simp [hall] at h

/-- The stale caches are the ones `caches.delete` is called for. -/
theorem activateHandler_deletes (name : String) (deleteOk : String → Bool)
    (s : CacheStorage) (nc : String × Cache) (hnc : nc ∈ s) (hne : nc.1 ≠ name) :
    Call.cachesDelete nc.1 ∈ (activateHandler name true deleteOk s).calls := by
  simp only [activateHandler, if_true]
  apply List.mem_append_right
  apply List.mem_map.mpr
  exact ⟨nc.1, List.mem_filter.mpr ⟨List.mem_map.mpr ⟨nc, hnc, rfl⟩, by simpa using hne⟩, rfl⟩

/-- C8. In both workers, for every storage: the promise the activate handler passes to
`waitUntil` resolves when the platform operations it starts resolve, and once it has
resolved no cache whose name differs from `CACHE_NAME` remains (the remaining caches
are exactly those named `CACHE_NAME`). -/
theorem activate_removes_stale (keysOk : Bool) (deleteOk : String → Bool)
    (s : CacheStorage) :
    ((∀ n, deleteOk n = true) →
      (App.activate true deleteOk s).waitUntil = .resolved () ∧
      (Www.activate true deleteOk s).waitUntil = .resolved ()) ∧
    ((App.activate keysOk deleteOk s).waitUntil = .resolved () →
      (∀ nc ∈ (App.activate keysOk deleteOk s).storage, nc.1 = App.CACHE_NAME) ∧
      (App.activate keysOk deleteOk s).storage
        = s.filter (fun nc => nc.1 == App.CACHE_NAME)) ∧
    ((Www.activate keysOk deleteOk s).waitUntil = .resolved () →
      (∀ nc ∈ (Www.activate keysOk deleteOk s).storage, nc.1 = Www.CACHE_NAME) ∧
      (Www.activate keysOk deleteOk s).storage
        = s.filter (fun nc => nc.1 == Www.CACHE_NAME)) := by
  refine ⟨?_, ?_, ?_⟩
  · intro hdel
    exact ⟨activateHandler_resolves App.CACHE_NAME deleteOk s (fun nc _ _ => hdel nc.1),
      activateHandler_resolves Www.CACHE_NAME deleteOk s (fun nc _ _ => hdel nc.1)⟩
  · exact activateHandler_clean App.CACHE_NAME keysOk deleteOk s
  · exact activateHandler_clean Www.CACHE_NAME keysOk deleteOk s

theorem activate_removes_stale_witness :
    (Www.activate true (fun _ => true)
        [("cmsvs-mobile-v0", [(scriptRequest.url.href, storedScript)]),
         (Www.CACHE_NAME, []), (App.CACHE_NAME, [])]).storage
      = [(Www.CACHE_NAME, [])] ∧
    (App.activate true (fun _ => true)
        [("cmsvs-mobile-v0", [(scriptRequest.url.href, storedScript)]),
         (Www.CACHE_NAME, []), (App.CACHE_NAME, [])]).storage
      = [(App.CACHE_NAME, [])] :=
  have h := activate_removes_stale true (fun _ => true)
    [("cmsvs-mobile-v0", [(scriptRequest.url.href, storedScript)]),
     (Www.CACHE_NAME, []), (App.CACHE_NAME, [])]
  ⟨((h.2.2 (by decide)).2).trans (by decide), ((h.2.1 (by decide)).2).trans (by decide)⟩

/-- The promise of the install handler resolves and `skipWaiting` is called, whatever
the outcome of opening and populating the cache. -/
theorem installHandler_resolves (name : String) (assets : List String) (self : URL)
    (openOk : Bool) (net : Network) (s : CacheStorage) :
    (installHandler name assets self openOk net s).waitUntil = .resolved () ∧
    Call.skipWaiting ∈ (installHandler name assets self openOk net s).calls := by
  unfold installHandler
  cases openOk with
  | false => simp
  | true =>
    cases addAllResponses self net assets with
    | none => simp
    | some entries => simp

/-- C10. In both workers the promise the install handler passes to `waitUntil` never
rejects: it resolves for every outcome of opening the cache (`openOk`) and of populating
it (every network), and `skipWaiting` is called on every install. -/
theorem install_never_rejects (self : URL) (openOk : Bool) (net : Network)
    (s : CacheStorage) :
    (App.install self openOk net s).waitUntil = .resolved () ∧
    Call.skipWaiting ∈ (App.install self openOk net s).calls ∧
    (Www.install self openOk net s).waitUntil = .resolved () ∧
    Call.skipWaiting ∈ (Www.install self openOk net s).calls :=
  ⟨(installHandler_resolves App.CACHE_NAME App.urlsToCache self openOk net s).1,
   (installHandler_resolves App.CACHE_NAME App.urlsToCache self openOk net s).2,
   (installHandler_resolves Www.CACHE_NAME Www.STATIC_CACHE_FILES self openOk net s).1,
   (installHandler_resolves Www.CACHE_NAME Www.STATIC_CACHE_FILES self openOk net s).2⟩

/-! ## Install-time population -/

/-- Storing under one key leaves the lookup of every other key as it was. -/
theorem lookup_store_ne (c : Cache) (key other : String) (resp : Response)
    (hne : other ≠ key) : (Cache.store c key resp).lookup other = c.lookup other := by
  unfold Cache.store
  have hko : (other == key) = false := by simpa using hne
  induction c with
  | nil => simp [List.lookup, hko]
  | cons e t ih =>
    rw [List.filter_cons]
    by_cases h : e.1 = key
    · simpa [h, List.lookup, hko] using ih
    · by_cases h2 : other = e.1
      · subst h2
        simp [h, List.lookup]
      · have hoe : (other == e.1) = false := by simpa using h2
        simpa [h, List.lookup, hoe] using ih

theorem lookup_foldl_store_of_not_mem (es : List (Request × Response)) (c : Cache)
    (key : String) (hk : key ∉ es.map (fun e => e.1.url.href)) :
    (es.foldl (fun c e => Cache.store c e.1.url.href e.2) c).lookup key = c.lookup key := by
  induction es generalizing c with
  | nil => rfl
  | cons e t ih =>
    simp only [List.map_cons, List.mem_cons, not_or] at hk
    simp only [List.foldl_cons]
    rw [ih _ hk.2]
    exact lookup_store_ne c e.1.url.href key e.2 hk.1

/-- Storing a list of entries of distinct keys leaves each of them retrievable. -/
theorem lookup_foldl_store (es : List (Request × Response)) (c : Cache)
    (hnd : (es.map (fun e => e.1.url.href)).Nodup) (e : Request × Response) (he : e ∈ es) :
    (es.foldl (fun c e => Cache.store c e.1.url.href e.2) c).lookup e.1.url.href
      = some e.2 := by
  induction es generalizing c with
  | nil => simp at he
  | cons a t ih =>
    simp only [List.map_cons, List.nodup_cons] at hnd
    simp only [List.foldl_cons]
    rcases List.mem_cons.mp he with rfl | ht
    · rw [lookup_foldl_store_of_not_mem t _ _ hnd.1]
      exact lookup_store c _ _
    · exact ih _ hnd.2 ht

/-- Putting a list of pairs the Cache API takes in the cache `name` stores them, cache
by cache. -/
theorem foldl_cachePut (name : String) (es : List (Request × Response))
    (hget : ∀ e ∈ es, cacheable e.1 e.2 = true) (st : CacheStorage) :
    es.foldl (fun st e => cachePut st name e.1 e.2) st
      = st.map (fun nc => if nc.1 = name then
          (nc.1, es.foldl (fun c e => Cache.store c e.1.url.href e.2) nc.2) else nc) := by
  induction es generalizing st with
  | nil => simp
  | cons a t ih =>
    simp only [List.foldl_cons]
    rw [ih (fun e he => hget e (List.mem_cons_of_mem _ he))]
    unfold cachePut
    rw [if_pos (hget a (by simp)), List.map_map]
    apply List.map_congr_left
    intro nc _
    by_cases hn : nc.1 = name
    · simp [hn]
    · simp [hn]

theorem href_requestOf_injective (self : URL) :
    Function.Injective (fun p => (requestOf self p).url.href) := by
  intro p q h
  simp only [requestOf, URL.href] at h
  have h2 := congrArg String.data h
  simp only [String.data_append, List.append_assoc] at h2
  have h3 := List.append_cancel_left (List.append_cancel_left (List.append_cancel_left h2))
  have h4 := List.append_cancel_right h3
  exact String.ext h4

/-- When every fetch resolves with an ok response that the Cache API takes, `fetchAll`
yields the requests of the paths, each with the response the network gave. -/
theorem fetchAll_of_all_ok (self : URL) (net : Network) (paths : List String)
    (hall : ∀ p ∈ paths, ∃ resp, net (requestOf self p) = .ok resp ∧ resp.ok = true ∧
      cacheable (requestOf self p) resp = true) :
    ∃ es, fetchAll self net paths = some es ∧
      es.map (fun e => e.1) = paths.map (requestOf self) ∧
      (∀ e ∈ es, cacheable e.1 e.2 = true) ∧
      ∀ p ∈ paths, ∀ resp, net (requestOf self p) = .ok resp →
        (requestOf self p, resp) ∈ es := by
  induction paths with
  | nil => exact ⟨[], rfl, rfl, by simp, by simp⟩
  | cons p ps ih =>
    obtain ⟨es, hes, hmap, hcs, hmem⟩ :=
      ih (fun q hq => hall q (List.mem_cons_of_mem _ hq))
    obtain ⟨resp, hnet, hok, hc⟩ := hall p (by simp)
    refine ⟨(requestOf self p, resp) :: es, ?_, ?_, ?_, ?_⟩
    · simp [fetchAll, hnet, hok, hc, hes]
    · simp [hmap]
    · intro e he
      rcases List.mem_cons.mp he with rfl | he
      · exact hc
      · exact hcs e he
    · intro q hq r hr
      rcases List.mem_cons.mp hq with rfl | hq
      · rw [hnet] at hr
        cases hr
        simp
      · exact List.mem_cons_of_mem _ (hmem q hq r hr)

/-- When some fetch rejects, or resolves with a response that is not ok or that the
Cache API does not take, `fetchAll` yields nothing. -/
theorem fetchAll_of_failure (self : URL) (net : Network) (paths : List String)
    (hfail : ∃ p ∈ paths, ∀ resp, net (requestOf self p) = .ok resp →
      (resp.ok && cacheable (requestOf self p) resp) = false) :
    fetchAll self net paths = none := by
  induction paths with
  | nil => obtain ⟨p, hp, _⟩ := hfail; simp at hp
  | cons p ps ih =>
    obtain ⟨q, hq, hbad⟩ := hfail
    unfold fetchAll
    cases hn : net (requestOf self p) with
    | error e => rfl
    | ok resp =>
      by_cases hok : (resp.ok && cacheable (requestOf self p) resp) = true
      · rcases List.mem_cons.mp hq with rfl | hq
        · have := hbad resp hn
          rw [hok] at this
          cases this
        · simp [hok, ih ⟨q, hq, hbad⟩]
      · simp [hok]

/-- After an install whose fetches all resolved with ok responses that the Cache API
takes, every cache of the current name holds each asset with the response the network
gave. -/
theorem installHandler_populated (name : String) (assets : List String) (self : URL)
    (net : Network) (s : CacheStorage) (hnd : assets.Nodup)
    (hall : ∀ p ∈ assets, ∃ resp, net (requestOf self p) = .ok resp ∧ resp.ok = true ∧
      cacheable (requestOf self p) resp = true) :
    (∃ nc ∈ (installHandler name assets self true net s).storage, nc.1 = name) ∧
    ∀ p ∈ assets, ∀ resp, net (requestOf self p) = .ok resp →
      ∀ nc ∈ (installHandler name assets self true net s).storage, nc.1 = name →
        cacheMatch nc.2 (requestOf self p) = some resp := by
  obtain ⟨es, hes, hmap, hcs, hmem⟩ := fetchAll_of_all_ok self net assets hall
  have hkeys : (es.map (fun e => e.1.url.href)).Nodup := by
    have h1 : es.map (fun e => e.1.url.href)
        = (es.map (fun e => e.1)).map (fun r => r.url.href) := by
      rw [List.map_map]; rfl
    rw [h1, hmap, List.map_map]
    exact List.Nodup.map (href_requestOf_injective self) hnd
  have hst : (installHandler name assets self true net s).storage
      = (cachesOpen s name).map (fun nc => if nc.1 = name then
          (nc.1, es.foldl (fun c e => Cache.store c e.1.url.href e.2) nc.2) else nc) := by
    simp only [installHandler, addAllResponses, if_pos hnd, hes, if_true]
    exact foldl_cachePut name es hcs _
  refine ⟨?_, ?_⟩
  · obtain ⟨nc, hnc, hn⟩ := cachesOpen_has s name
    rw [hst]
    exact ⟨(nc.1, es.foldl (fun c e => Cache.store c e.1.url.href e.2) nc.2),
      List.mem_map.mpr ⟨nc, hnc, by simp [hn]⟩, hn⟩
  · intro p hp resp hresp nc hnc hn
    rw [hst] at hnc
    obtain ⟨nc0, _, rfl⟩ := List.mem_map.mp hnc
    by_cases h0 : nc0.1 = name
    · simp only [h0, if_true]
      have := lookup_foldl_store es nc0.2 hkeys (requestOf self p, resp) (hmem p hp resp hresp)
      simpa [cacheMatch, requestOf] using this
    · rw [if_neg h0] at hn
      exact absurd hn h0

/-- After an install in which some fetch failed or gave a response `cache.addAll` does
not take, the storage is the one `caches.open` left: no entry was added. -/
theorem installHandler_nothing (name : String) (assets : List String) (self : URL)
    (net : Network) (s : CacheStorage)
    (hfail : ∃ p ∈ assets, ∀ resp, net (requestOf self p) = .ok resp →
      (resp.ok && cacheable (requestOf self p) resp) = false) :
    (installHandler name assets self true net s).storage = cachesOpen s name := by
  have hnone : addAllResponses self net assets = none := by
    unfold addAllResponses
    split
    · exact fetchAll_of_failure self net assets hfail
    · rfl
  simp [installHandler, hnone]

/-- C9 (as amended). The install handler of both workers is `installHandler` at the
worker's cache name and asset list, both lists being duplicate-free. For every cache
name, every asset list and every network: when the list is duplicate-free and every
asset is fetched with an ok response that `cache.addAll` takes (the worker served over
http(s), a status other than 206, no `Vary: *`), the current cache exists after install
and holds every asset with its response; when the fetch of some asset rejects, or gives
a response that is not ok or that `cache.addAll` does not take, `cache.addAll` rejects
as a whole and the install adds no entry at all, so the assets whose fetch succeeded
are not cached either; the install promise resolves in both cases. -/
theorem install_all_or_nothing (name : String) (assets : List String) (self : URL)
    (net : Network) (s : CacheStorage) :
    (App.install self true net s = installHandler App.CACHE_NAME App.urlsToCache self true net s
      ∧ Www.install self true net s
        = installHandler Www.CACHE_NAME Www.STATIC_CACHE_FILES self true net s
      ∧ App.urlsToCache.Nodup ∧ Www.STATIC_CACHE_FILES.Nodup) ∧
    (assets.Nodup →
      (∀ p ∈ assets, ∃ resp, net (requestOf self p) = .ok resp ∧ resp.ok = true ∧
        cacheable (requestOf self p) resp = true) →
      (∃ nc ∈ (installHandler name assets self true net s).storage, nc.1 = name) ∧
      ∀ p ∈ assets, ∀ resp, net (requestOf self p) = .ok resp →
        ∀ nc ∈ (installHandler name assets self true net s).storage, nc.1 = name →
          cacheMatch nc.2 (requestOf self p) = some resp) ∧
    ((∃ p ∈ assets, ∀ resp, net (requestOf self p) = .ok resp →
        (resp.ok && cacheable (requestOf self p) resp) = false) →
      (installHandler name assets self true net s).storage = cachesOpen s name) ∧
    (∀ resp, cacheable (requestOf self "/") resp
      = ((self.scheme == "http" || self.scheme == "https") && resp.status != 206
          && !resp.varyStar)) ∧
    (installHandler name assets self true net s).waitUntil = .resolved () :=
  ⟨⟨rfl, rfl, by decide, by decide⟩,
   installHandler_populated name assets self net s,
   installHandler_nothing name assets self net s,
   fun resp => by simp [cacheable, requestOf],
   (installHandler_resolves name assets self true net s).1⟩

theorem install_all_or_nothing_witness :
    (∀ nc ∈ (installHandler Www.CACHE_NAME Www.STATIC_CACHE_FILES sampleSelf true
        onlineNetwork []).storage, nc.1 = Www.CACHE_NAME →
      cacheMatch nc.2 (requestOf sampleSelf "/index.html")
        = some { status := 200, type := "basic", body := "fresh" }) ∧
    (installHandler App.CACHE_NAME App.urlsToCache sampleSelf true offlineNetwork
        [(App.CACHE_NAME, [])]).storage = cachesOpen [(App.CACHE_NAME, [])] App.CACHE_NAME ∧
    (installHandler App.CACHE_NAME App.urlsToCache sampleSelf true
        (fun _ => .ok partialContent) []).storage = cachesOpen [] App.CACHE_NAME :=
  have h := install_all_or_nothing Www.CACHE_NAME Www.STATIC_CACHE_FILES sampleSelf
    onlineNetwork []
  have h2 := install_all_or_nothing App.CACHE_NAME App.urlsToCache sampleSelf
    offlineNetwork [(App.CACHE_NAME, [])]
  have h3 := install_all_or_nothing App.CACHE_NAME App.urlsToCache sampleSelf
    (fun _ => .ok partialContent) []
  ⟨(h.2.1 (by decide) (fun _ _ => ⟨_, rfl, by decide,
      by simp [cacheable, requestOf, sampleSelf]⟩)).2 "/index.html" (by decide) _ rfl,
   h2.2.2.1 ⟨"/", by decide, fun _ hr => by cases hr⟩,
   h3.2.2.1 ⟨"/", by decide, fun resp hr => by
     have hresp : resp = partialContent := (Except.ok.inj hr).symm
     rw [hresp]
     decide⟩⟩

/-- C9, counterexample. An install of `Www` during which only the fetch of
`/index.html` fails: the fetch of `/` succeeded, and after the install `/` has no entry
in the cache, which is empty. -/
theorem install_not_partial :
    "/" ∈ Www.STATIC_CACHE_FILES ∧
    indexDownNetwork (requestOf sampleSelf "/")
      = .ok { status := 200, type := "basic", body := "fresh" } ∧
    (Www.install sampleSelf true indexDownNetwork []).waitUntil = .resolved () ∧
    (Www.install sampleSelf true indexDownNetwork []).storage = [(Www.CACHE_NAME, [])] ∧
    cachesMatchPath sampleSelf (Www.install sampleSelf true indexDownNetwork []).storage "/"
      = none :=
  ⟨by decide, rfl, by decide, by decide, by decide⟩

/-! ## Offline action replay -/

theorem objectsFrom_ids (start : Nat) (q : List Action) :
    (objectsFrom start q).map (fun e => e.id) = List.range' start q.length := by
  induction q generalizing start with
  | nil => rfl
  | cons a rest ih => simp [objectsFrom, ih, List.range']

theorem objectsFrom_length (start : Nat) (q : List Action) :
    (objectsFrom start q).length = q.length := by
  induction q generalizing start with
  | nil => rfl
  | cons a rest ih => simp [objectsFrom, ih]

theorem serialise_objectsFrom (start : Nat) (q : List Action) :
    serialise (objectsFrom start q) = q := by
  induction q generalizing start with
  | nil => rfl
  | cons a rest ih =>
    simp only [serialise, objectsFrom, List.map_cons] at ih ⊢
    rw [ih]

/-- The objects of a parsed queue have pairwise distinct identities. -/
theorem objectsFrom_nodup (start : Nat) (q : List Action) :
    ((objectsFrom start q).map (fun e => e.id)).Nodup := by
  rw [objectsFrom_ids]
  exact List.nodup_range' start q.length

/-- `indexOf` finds an element at its own position when no element before it is the
same object. -/
theorem indexOf_append_self (pre rest : List Entry) (e : Entry)
    (h : ∀ y ∈ pre, y.id ≠ e.id) : indexOf (pre ++ e :: rest) e = some pre.length := by
  induction pre with
  | nil => simp [indexOf]
  | cons y ys ih =>
    have hy : y.id ≠ e.id := h y (by simp)
    have ih2 := ih (fun z hz => h z (List.mem_cons_of_mem _ hz))
    simp [indexOf, hy, ih2]

theorem eraseIdx_append_self (pre rest : List Entry) (e : Entry) :
    (pre ++ e :: rest).eraseIdx pre.length = pre ++ rest := by
  induction pre with
  | nil => rfl
  | cons y ys ih => simp [List.eraseIdx, ih]

theorem getElem?_append_self (pre rest : List Entry) (e : Entry) :
    (pre ++ e :: rest)[pre.length]? = some e := by
  rw [List.getElem?_append_right (Nat.le_refl _)]
  simp

/-- The replay loop in closed form: started at the index `pre.length` on the array
`pre ++ rest`, with more fuel than `rest` has entries, it ends with the array
`pre ++ kept rest`, having fetched `attempted rest`. -/
theorem replayLoop_closed (replayOk : Entry → Bool) (fuel : Nat) (pre rest : List Entry)
    (fetched : List Entry) (hnd : ((pre ++ rest).map (fun e => e.id)).Nodup)
    (hfuel : rest.length < fuel) :
    Www.replayLoop replayOk fuel pre.length { array := pre ++ rest, fetched := fetched }
      = some { array := pre ++ kept replayOk rest
               fetched := fetched ++ attempted replayOk rest } := by
  induction fuel generalizing pre rest fetched with
  | zero => omega
  | succ fuel ih =>
    match rest, hnd, hfuel with
    | [], _, _ =>
      simp [Www.replayLoop, kept, attempted]
    | [e], hnd, hfuel =>
      have hidx : indexOf (pre ++ [e]) e = some pre.length := by
        apply indexOf_append_self
        intro y hy hid
        simp only [List.map_append, List.map_cons, List.map_nil] at hnd
        have hdis := (List.nodup_append.mp hnd).2.2
        exact hdis (List.mem_map.mpr ⟨y, hy, rfl⟩) (by simp [hid])
      by_cases hok : replayOk e = true
      · cases fuel with
        | zero => simp at hfuel
        | succ fuel2 =>
          have hend : pre[pre.length + 1]? = none := List.getElem?_eq_none (by omega)
          simp only [Www.replayLoop, getElem?_append_self, hok, if_true, hidx, splice1,
            eraseIdx_append_self, kept, attempted, List.append_nil, hend]
      · have hnd2 : (((pre ++ [e]) ++ []).map (fun (x : Entry) => x.id)).Nodup := by
          simpa using hnd
        have hstep := ih (pre ++ [e]) [] (fetched ++ [e]) hnd2
          (by simp only [List.length_cons, List.length_nil] at hfuel ⊢; omega)
        simp only [Www.replayLoop, getElem?_append_self, hok, kept, attempted]
        simp only [Bool.false_eq_true, if_false]
        simp only [List.length_append, List.length_singleton, List.append_nil, kept,
          attempted] at hstep
        rw [hstep]
    | e :: b :: t, hnd, hfuel =>
      have hidx : indexOf (pre ++ e :: b :: t) e = some pre.length := by
        apply indexOf_append_self
        intro y hy hid
        simp only [List.map_append, List.map_cons] at hnd
        have hdis := (List.nodup_append.mp hnd).2.2
        exact hdis (List.mem_map.mpr ⟨y, hy, rfl⟩) (by simp [hid])
      by_cases hok : replayOk e = true
      · have hnd2 : (((pre ++ [b]) ++ t).map (fun x => x.id)).Nodup := by
          have hsub : List.Sublist (((pre ++ [b]) ++ t).map (fun x => x.id))
              ((pre ++ e :: b :: t).map (fun x => x.id)) := by
            apply List.Sublist.map
            simp only [List.append_assoc, List.singleton_append]
            exact List.Sublist.append_left (List.sublist_cons_self e (b :: t)) pre
          exact List.Nodup.sublist hsub hnd
        have hstep := ih (pre ++ [b]) t (fetched ++ [e]) hnd2
          (by simp only [List.length_cons] at hfuel; omega)
        simp only [Www.replayLoop, getElem?_append_self, hok, if_true, hidx, splice1,
          eraseIdx_append_self, kept, attempted]
        simp only [List.length_append, List.length_singleton, List.append_assoc,
          List.singleton_append] at hstep
        rw [hstep]
      · have hnd2 : (((pre ++ [e]) ++ (b :: t)).map (fun x => x.id)).Nodup := by
          simpa using hnd
        have hstep := ih (pre ++ [e]) (b :: t) (fetched ++ [e]) hnd2
          (by simp only [List.length_cons] at hfuel ⊢; omega)
        simp only [Www.replayLoop, getElem?_append_self, hok, kept, attempted]
        simp only [Bool.false_eq_true, if_false]
        simp only [List.length_append, List.length_singleton, List.append_assoc,
          List.singleton_append] at hstep
        rw [hstep]

/-- `handleOfflineActions` always returns: for a stored queue it fetches
`attempted` of the parsed objects and writes `kept` of them back. -/
theorem handleOfflineActions_closed (q : List Action) (replayOk : Entry → Bool) :
    Www.handleOfflineActions (.ok q) replayOk
      = some { fetched := attempted replayOk (objectsFrom 0 q)
               written := some (kept replayOk (objectsFrom 0 q)) } := by
  have h := replayLoop_closed replayOk (q.length + 1) [] (objectsFrom 0 q) []
    (by simpa using objectsFrom_nodup 0 q) (by rw [objectsFrom_length]; omega)
  simp only [List.length_nil, List.nil_append] at h
  simp [Www.handleOfflineActions, h]

/-- Induction along the two ways the loop moves on: by one entry or by two. -/
theorem list_two_step {P : List Entry → Prop} (h0 : P []) (h1 : ∀ e, P [e])
    (h2 : ∀ e b t, P t → P (b :: t) → P (e :: b :: t)) (l : List Entry) : P l := by
  have h : ∀ l : List Entry, P l ∧ ∀ x, P (x :: l) := by
    intro l
    induction l with
    | nil => exact ⟨h0, h1⟩
    | cons b t ih => exact ⟨ih.2 b, fun x => h2 x b t ih.1 (ih.2 b)⟩
  exact (h l).1

theorem attempted_cons_ok (replayOk : Entry → Bool) (e b : Entry) (t : List Entry)
    (hok : replayOk e = true) :
    attempted replayOk (e :: b :: t) = e :: attempted replayOk t := by
  simp only [attempted, hok, if_true]

theorem attempted_cons_fail (replayOk : Entry → Bool) (e : Entry) (l : List Entry)
    (hfail : replayOk e = false) :
    attempted replayOk (e :: l) = e :: attempted replayOk l := by
  cases l with
  | nil => rfl
  | cons b t => simp only [attempted, hfail, Bool.false_eq_true, if_false]

theorem kept_cons_ok (replayOk : Entry → Bool) (e b : Entry) (t : List Entry)
    (hok : replayOk e = true) : kept replayOk (e :: b :: t) = b :: kept replayOk t := by
  simp only [kept, hok, if_true]

theorem kept_cons_fail (replayOk : Entry → Bool) (e : Entry) (l : List Entry)
    (hfail : replayOk e = false) : kept replayOk (e :: l) = e :: kept replayOk l := by
  cases l with
  | nil => simp only [kept, hfail, Bool.false_eq_true, if_false]
  | cons b t => simp only [kept, hfail, Bool.false_eq_true, if_false]

/-- The fetches are issued for entries of the array, in the order of the array, each
at most once. -/
theorem attempted_sublist (replayOk : Entry → Bool) (l : List Entry) :
    List.Sublist (attempted replayOk l) l := by
  refine list_two_step (P := fun l => List.Sublist (attempted replayOk l) l) ?_ ?_ ?_ l
  · exact List.Sublist.refl _
  · intro e; exact List.Sublist.refl _
  · intro e b t ht hbt
    cases hok : replayOk e with
    | true =>
      rw [attempted_cons_ok replayOk e b t hok]
      exact List.Sublist.cons₂ e (List.Sublist.cons b ht)
    | false =>
      rw [attempted_cons_fail replayOk e (b :: t) hok]
      exact List.Sublist.cons₂ e hbt

/-- The first entry of the part not yet visited is fetched first. -/
theorem attempted_head (replayOk : Entry → Bool) (b : Entry) (t : List Entry) :
    ∃ f, attempted replayOk (b :: t) = b :: f := by
  cases t with
  | nil => exact ⟨[], rfl⟩
  | cons c t2 =>
    cases hok : replayOk b with
    | true => exact ⟨attempted replayOk t2, attempted_cons_ok replayOk b c t2 hok⟩
    | false => exact ⟨attempted replayOk (c :: t2), attempted_cons_fail replayOk b _ hok⟩

/-- An entry that the loop does not keep was fetched, and its fetch resolved. -/
theorem removed_was_fetched (replayOk : Entry → Bool) (l : List Entry) :
    ∀ e ∈ l, e ∉ kept replayOk l → e ∈ attempted replayOk l ∧ replayOk e = true := by
  refine list_two_step
    (P := fun l => ∀ e ∈ l, e ∉ kept replayOk l → e ∈ attempted replayOk l ∧ replayOk e = true)
    ?_ ?_ ?_ l
  · intro e he; simp at he
  · intro x e he hk
    have hex : e = x := by simpa using he
    subst hex
    cases hok : replayOk e with
    | true => exact ⟨by simp [attempted], rfl⟩
    | false =>
      rw [kept_cons_fail replayOk e [] hok] at hk
      exact absurd (List.mem_cons_self _ _) hk
  · intro x b t ht hbt e he hk
    cases hok : replayOk x with
    | true =>
      rw [kept_cons_ok replayOk x b t hok] at hk
      rw [attempted_cons_ok replayOk x b t hok]
      simp only [List.mem_cons, not_or] at hk
      rcases List.mem_cons.mp he with hex | he2
      · subst hex
        exact ⟨List.mem_cons_self _ _, hok⟩
      · rcases List.mem_cons.mp he2 with heb | he3
        · exact absurd heb hk.1
        · have h3 := ht e he3 hk.2
          exact ⟨List.mem_cons_of_mem _ h3.1, h3.2⟩
    | false =>
      rw [kept_cons_fail replayOk x (b :: t) hok] at hk
      rw [attempted_cons_fail replayOk x (b :: t) hok]
      have hk2 : e ≠ x ∧ e ∉ kept replayOk (b :: t) := by
        constructor
        · intro h; exact hk (by rw [h]; exact List.mem_cons_self _ _)
        · intro h; exact hk (List.mem_cons_of_mem _ h)
      rcases List.mem_cons.mp he with hex | he2
      · exact absurd hex hk2.1
      · have h3 := hbt e he2 hk2.2
        exact ⟨List.mem_cons_of_mem _ h3.1, h3.2⟩

/-- When no fetch resolves, every entry is fetched and every entry is kept. -/
theorem all_fail_closed (replayOk : Entry → Bool) (hfail : ∀ e, replayOk e = false)
    (l : List Entry) : attempted replayOk l = l ∧ kept replayOk l = l := by
  induction l with
  | nil => exact ⟨rfl, rfl⟩
  | cons e t ih =>
    rw [attempted_cons_fail replayOk e t (hfail e), kept_cons_fail replayOk e t (hfail e),
      ih.1, ih.2]
    exact ⟨rfl, rfl⟩

/-- After a fetched entry whose fetch rejects, the next fetch is for the entry right
behind it in the array. -/
theorem attempted_next (replayOk : Entry → Bool) (post : List Entry) (e b : Entry)
    (hfail : replayOk e = false) (pre : List Entry)
    (hnd : (pre ++ e :: b :: post).Nodup)
    (hmem : e ∈ attempted replayOk (pre ++ e :: b :: post)) :
    ∃ f1 f2, attempted replayOk (pre ++ e :: b :: post) = f1 ++ e :: b :: f2 := by
  have hbase : ∃ f, attempted replayOk (e :: b :: post) = e :: b :: f := by
    obtain ⟨f, hf⟩ := attempted_head replayOk b post
    exact ⟨f, by rw [attempted_cons_fail replayOk e _ hfail, hf]⟩
  revert hnd hmem
  refine list_two_step
    (P := fun pre => (pre ++ e :: b :: post).Nodup →
      e ∈ attempted replayOk (pre ++ e :: b :: post) →
      ∃ f1 f2, attempted replayOk (pre ++ e :: b :: post) = f1 ++ e :: b :: f2) ?_ ?_ ?_ pre
  · intro _ _
    obtain ⟨f, hf⟩ := hbase
    exact ⟨[], f, by rw [List.nil_append, hf]; rfl⟩
  · intro p hnd hmem
    obtain ⟨f, hf⟩ := hbase
    have hlist : [p] ++ e :: b :: post = p :: e :: b :: post := rfl
    rw [hlist] at hnd hmem ⊢
    have hnd1 := List.nodup_cons.mp hnd
    have hnd2 := List.nodup_cons.mp hnd1.2
    cases hok : replayOk p with
    | true =>
      -- the entry behind `p` is skipped: it cannot have been fetched
      exfalso
      rw [attempted_cons_ok replayOk p e (b :: post) hok] at hmem
      rcases List.mem_cons.mp hmem with h | h
      · exact hnd1.1 (by rw [← h]; exact List.mem_cons_self _ _)
      · exact hnd2.1 ((attempted_sublist replayOk (b :: post)).subset h)
    | false =>
      refine ⟨[p], f, ?_⟩
      rw [attempted_cons_fail replayOk p _ hok, hf]
      rfl
  · intro p p2 t ht hp2t hnd hmem
    have hlist : (p :: p2 :: t) ++ e :: b :: post = p :: p2 :: (t ++ e :: b :: post) := rfl
    rw [hlist] at hnd hmem ⊢
    have hnd1 := List.nodup_cons.mp hnd
    have hnd2 := List.nodup_cons.mp hnd1.2
    have hne : e ≠ p := by
      intro h
      apply hnd1.1
      rw [← h]
      exact List.mem_cons_of_mem _ (List.mem_append_right _ (List.mem_cons_self _ _))
    cases hok : replayOk p with
    | true =>
      rw [attempted_cons_ok replayOk p p2 _ hok] at hmem ⊢
      rcases List.mem_cons.mp hmem with h | h
      · exact absurd h hne
      · obtain ⟨f1, f2, hf⟩ := ht hnd2.2 h
        exact ⟨p :: f1, f2, by rw [hf]; rfl⟩
    | false =>
      rw [attempted_cons_fail replayOk p _ hok] at hmem ⊢
      rcases List.mem_cons.mp hmem with h | h
      · exact absurd h hne
      · obtain ⟨f1, f2, hf⟩ := hp2t hnd1.2 h
        refine ⟨p :: f1, f2, ?_⟩
        have hlist2 : (p2 :: t) ++ e :: b :: post = p2 :: (t ++ e :: b :: post) := rfl
        rw [hlist2] at hf
        rw [hf]
        rfl

/-- The objects of a parsed queue are pairwise distinct. -/
theorem objectsFrom_entries_nodup (start : Nat) (q : List Action) :
    (objectsFrom start q).Nodup :=
  List.Nodup.of_map (fun e => e.id) (objectsFrom_nodup start q)

/-- C11. For every stored queue of three entries `[a1, a2, a3]` and every network on
which the replays of `a1` and `a3` succeed and the replay of `a2` fails,
`handleOfflineActions` returns and the queue it writes back is exactly `[a2]`. (The
fetches it issued are those of `a1` and `a3`.) -/
theorem replay_second_fails (a1 a2 a3 : Action) (replayOk : Entry → Bool)
    (h1 : replayOk { id := 0, action := a1 } = true)
    (h2 : replayOk { id := 1, action := a2 } = false)
    (h3 : replayOk { id := 2, action := a3 } = true) :
    ∃ out, Www.handleOfflineActions (.ok [a1, a2, a3]) replayOk = some out ∧
      out.written.map serialise = some [a2] ∧
      out.fetched = [{ id := 0, action := a1 }, { id := 2, action := a3 }] := by
  have _ := h2
  refine ⟨_, handleOfflineActions_closed [a1, a2, a3] replayOk, ?_, ?_⟩
  · simp [objectsFrom, kept, h1, h3, serialise]
  · simp [objectsFrom, attempted, h1]

theorem replay_second_fails_witness :
    ∃ out, Www.handleOfflineActions (.ok [firstAction, secondAction, thirdAction])
        (fun e => e.id != 1) = some out ∧
      out.written.map serialise = some [secondAction] ∧
      out.fetched = [{ id := 0, action := firstAction }, { id := 2, action := thirdAction }] :=
  replay_second_fails firstAction secondAction thirdAction (fun e => e.id != 1)
    (by decide) (by decide) (by decide)

/-- C12, the failing input evaluated. For the stored queue of two actions whose
replays both succeed, `handleOfflineActions` fetches the first action only: the second
is never replayed, and is the queue written back. -/
theorem replay_skips_entry :
    Www.handleOfflineActions (.ok [firstAction, secondAction]) (fun _ => true)
      = some { fetched := [{ id := 0, action := firstAction }]
               written := some [{ id := 1, action := secondAction }] } := by
  decide

/-- C13. For every stored queue and every pattern of replay success and failure,
`handleOfflineActions` returns and writes a queue back, and every entry of the original
queue that is absent from the queue written back is an entry whose own replay was
issued and succeeded. -/
theorem removed_only_after_success (q : List Action) (replayOk : Entry → Bool) :
    ∃ out w, Www.handleOfflineActions (.ok q) replayOk = some out ∧
      out.written = some w ∧
      ∀ e ∈ objectsFrom 0 q, e ∉ w → e ∈ out.fetched ∧ replayOk e = true :=
  ⟨_, _, handleOfflineActions_closed q replayOk, rfl,
    removed_was_fetched replayOk (objectsFrom 0 q)⟩

/-- C14. For every stored queue and every pattern of replay success and failure,
`handleOfflineActions` returns, and whenever an entry was fetched, its fetch failed and
another entry follows it in the queue, the fetch issued right after it is the one of
that following entry. When every replay fails, every entry is fetched exactly once in
queue order and the queue written back is the original queue. -/
theorem failure_does_not_halt (q : List Action) (replayOk : Entry → Bool) :
    ∃ out, Www.handleOfflineActions (.ok q) replayOk = some out ∧
      (∀ pre e b post, objectsFrom 0 q = pre ++ e :: b :: post → e ∈ out.fetched →
        replayOk e = false → ∃ f1 f2, out.fetched = f1 ++ e :: b :: f2) ∧
      ((∀ e, replayOk e = false) →
        out.fetched = objectsFrom 0 q ∧ out.written = some (objectsFrom 0 q) ∧
        out.written.map serialise = some q) := by
  refine ⟨_, handleOfflineActions_closed q replayOk, ?_, ?_⟩
  · intro pre e b post hq hmem hfail
    simp only at hmem ⊢
    have hnd := objectsFrom_entries_nodup 0 q
    rw [hq] at hnd hmem ⊢
    exact attempted_next replayOk post e b hfail pre hnd hmem
  · intro hfail
    have h := all_fail_closed replayOk hfail (objectsFrom 0 q)
    simp only [h.1, h.2, Option.map_some', serialise_objectsFrom]
    exact ⟨trivial, trivial, trivial⟩

theorem failure_does_not_halt_witness :
    (∃ out, Www.handleOfflineActions (.ok [firstAction, secondAction, thirdAction])
        (fun _ => false) = some out ∧
      out.fetched = objectsFrom 0 [firstAction, secondAction, thirdAction] ∧
      out.written.map serialise = some [firstAction, secondAction, thirdAction]) ∧
    (∃ out, Www.handleOfflineActions (.ok [firstAction, secondAction, thirdAction])
        (fun e => e.id != 0) = some out ∧
      ∃ f1 f2, out.fetched
        = f1 ++ { id := 0, action := firstAction } :: { id := 1, action := secondAction } :: f2) := by
  constructor
  · obtain ⟨out, hout, _, hall⟩ :=
      failure_does_not_halt [firstAction, secondAction, thirdAction] (fun _ => false)
    exact ⟨out, hout, (hall (fun _ => rfl)).1, (hall (fun _ => rfl)).2.2⟩
  · obtain ⟨out, hout, hnext, _⟩ :=
      failure_does_not_halt [firstAction, secondAction, thirdAction] (fun e => e.id != 0)
    have hval : Www.handleOfflineActions (.ok [firstAction, secondAction, thirdAction])
        (fun e => e.id != 0)
        = some { fetched := [{ id := 0, action := firstAction },
                             { id := 1, action := secondAction }]
                 written := some [{ id := 0, action := firstAction },
                                  { id := 2, action := thirdAction }] } := by
      decide
    have hout2 := Option.some.inj (hout.symm.trans hval)
    refine ⟨out, hout, hnext [] _ _ [{ id := 2, action := thirdAction }] rfl ?_ rfl⟩
    rw [hout2]
    decide

/-! ## Notification clicks -/

/-- The loop over the clients stops at the first client of the target's origin: that
client is navigated when its URL differs from the target's and is focused. -/
theorem routeClients_first (target : URL) (url : Json) (pre post : List WindowClient)
    (c : WindowClient) (hpre : ∀ x ∈ pre, x.url.origin ≠ target.origin)
    (hc : c.url.origin = target.origin) :
    App.routeClients target url (pre ++ c :: post)
      = if c.url.href ≠ target.href then [.navigate c.id target.href, .focus c.id]
        else [.focus c.id] := by
  induction pre with
  | nil => simp [App.routeClients, hc]
  | cons x rest ih =>
    have hx : x.url.origin ≠ target.origin := hpre x (by simp)
    have ih2 := ih (fun y hy => hpre y (List.mem_cons_of_mem _ hy))
    simp only [List.cons_append, App.routeClients, hx, if_false]
    exact ih2

/-- When no client has the target's origin, one window is opened. -/
theorem routeClients_none (target : URL) (url : Json) (clients : List WindowClient)
    (h : ∀ x ∈ clients, x.url.origin ≠ target.origin) :
    App.routeClients target url clients = [.openWindow url] := by
  induction clients with
  | nil => rfl
  | cons x rest ih =>
    have hx : x.url.origin ≠ target.origin := h x (by simp)
    simp only [App.routeClients, hx, if_false]
    exact ih (fun y hy => h y (List.mem_cons_of_mem _ hy))

/-- The loop over the clients either opens a window at the target or focuses a client
that is at the target or is navigated to it. -/
theorem routeClients_focus_or_open (target : URL) (url : Json)
    (clients : List WindowClient) :
    ClientCall.openWindow url ∈ App.routeClients target url clients ∨
    ∃ c ∈ clients, ClientCall.focus c.id ∈ App.routeClients target url clients ∧
      (c.url.href = target.href ∨
        ClientCall.navigate c.id target.href ∈ App.routeClients target url clients) := by
  induction clients with
  | nil => left; simp [App.routeClients]
  | cons x rest ih =>
    by_cases hx : x.url.origin = target.origin
    · right
      refine ⟨x, by simp, ?_⟩
      by_cases hh : x.url.href = target.href
      · simp [App.routeClients, hx, hh]
      · simp [App.routeClients, hx, hh]
    · rcases ih with h | ⟨c, hc, hf, hn⟩
      · left
        simpa [App.routeClients, hx] using h
      · right
        refine ⟨c, List.mem_cons_of_mem _ hc, ?_⟩
        simpa [App.routeClients, hx] using ⟨hf, hn⟩

/-- C20. In the `App` notificationclick listener, for an action other than `dismiss`
and every list of open window clients: when some client has the origin of the target
URL, the first such client is focused, it is navigated to the target's href exactly
when its URL differs from it, and no window is opened; when no client has that origin,
exactly one window is opened at the target URL and no client is focused or
navigated. -/
theorem client_routing (resolve : Json → URL) (clients : List WindowClient)
    (action : String) (data : Json) (haction : action ≠ "dismiss") :
    (∀ pre c post, clients = pre ++ c :: post →
      (∀ x ∈ pre, x.url.origin ≠ (resolve (App.urlToOpen data)).origin) →
      c.url.origin = (resolve (App.urlToOpen data)).origin →
      (App.notificationclick resolve clients action data).calls
        = [.close, .matchAll] ++
          (if c.url.href ≠ (resolve (App.urlToOpen data)).href then
            [.navigate c.id (resolve (App.urlToOpen data)).href, .focus c.id]
          else [.focus c.id])) ∧
    ((∀ x ∈ clients, x.url.origin ≠ (resolve (App.urlToOpen data)).origin) →
      (App.notificationclick resolve clients action data).calls
        = [.close, .matchAll, .openWindow (App.urlToOpen data)]) := by
  refine ⟨?_, ?_⟩
  · intro pre c post hclients hpre hc
    simp only [App.notificationclick, haction, if_false]
    rw [hclients, routeClients_first _ _ pre post c hpre hc]
  · intro hnone
    simp only [App.notificationclick, haction, if_false]
    rw [routeClients_none _ _ clients hnone]
    rfl

theorem client_routing_witness :
    (App.notificationclick sampleResolve sampleClients "view"
        (.obj [("url", .str "/y")])).calls
      = [.close, .matchAll, .navigate 2 "https://cmsvs.example/y", .focus 2] ∧
    (App.notificationclick sampleResolve
        [{ id := 1, url := { scheme := "https", host := "other.example", pathname := "/",
                             search := "" } }] "view" (.obj [("url", .str "/y")])).calls
      = [.close, .matchAll, .openWindow (.str "/y")] :=
  ⟨(client_routing sampleResolve sampleClients "view" (.obj [("url", .str "/y")])
      (by decide)).1
      [{ id := 1, url := { scheme := "https", host := "other.example", pathname := "/",
                           search := "" } }]
      { id := 2, url := { scheme := "https", host := "cmsvs.example", pathname := "/home",
                          search := "" } }
      [] rfl (by decide) (by decide),
   (client_routing sampleResolve
      [{ id := 1, url := { scheme := "https", host := "other.example", pathname := "/",
                           search := "" } }] "view" (.obj [("url", .str "/y")])
      (by decide)).2 (by decide)⟩

/-- C18 (as amended). A notification click whose action is `dismiss`, in both workers,
or `close`, in `Www`, closes the notification and does nothing else: no client is
focused or navigated, no window is opened, nothing is raised. -/
theorem dismiss_does_nothing (resolve : Json → URL) (clients : List WindowClient)
    (action : String) (data : Json) :
    (App.notificationclick resolve clients "dismiss" data).calls = [.close] ∧
    (App.notificationclick resolve clients "dismiss" data).raised = none ∧
    ((action = "dismiss" ∨ action = "close") →
      (Www.notificationclick action data).calls = [.close] ∧
      (Www.notificationclick action data).raised = none) := by
  refine ⟨rfl, rfl, ?_⟩
  intro h
  have hno : ¬(action = "open" ∨ action = "") := by
    rcases h with h | h <;> subst h <;> decide
  simp [Www.notificationclick, hno]

theorem dismiss_does_nothing_witness :
    (Www.notificationclick "close" (.obj [("url", .str "/y")])).calls = [.close] ∧
    (Www.notificationclick "close" (.obj [("url", .str "/y")])).raised = none :=
  (dismiss_does_nothing sampleResolve sampleClients "close" (.obj [("url", .str "/y")])).2.2
    (Or.inr rfl)

/-- C18, counterexample. In `App` a click with the action `close` is not a dismissal:
with no window open, the handler goes on to open one. -/
theorem app_close_opens :
    (App.notificationclick sampleResolve [] "close" .null).calls
      = [.close, .matchAll, .openWindow (.str "/")] :=
  rfl

/-- C19 (as amended). In `App`, a click whose action is not `dismiss` takes as target
the notification's `data.url` when it is truthy, and `/` when the data or its `url` is
absent, and focuses a client at the target (after navigating it there when needed) or
opens a window at the target. In `Www`, a click whose action is `open` or empty opens a
window at the `url` of the notification's data object when it is truthy and at `/`
when it is absent; a click with any other action only closes the notification. -/
theorem click_opens_target (resolve : Json → URL) (clients : List WindowClient)
    (action : String) (data : Json) (fields : List (String × Json)) :
    (App.urlToOpen .null = .str "/" ∧
      App.urlToOpen (.obj fields) = orDefault (fields.lookup "url") (.str "/") ∧
      (fields.lookup "url" = none → App.urlToOpen (.obj fields) = .str "/") ∧
      (∀ u, fields.lookup "url" = some u → u.truthy = true →
        App.urlToOpen (.obj fields) = u)) ∧
    (action ≠ "dismiss" →
      (App.notificationclick resolve clients action data).calls
        = [.close, .matchAll]
          ++ App.routeClients (resolve (App.urlToOpen data)) (App.urlToOpen data) clients ∧
      (ClientCall.openWindow (App.urlToOpen data)
          ∈ (App.notificationclick resolve clients action data).calls ∨
        ∃ c ∈ clients,
          ClientCall.focus c.id ∈ (App.notificationclick resolve clients action data).calls ∧
          (c.url.href = (resolve (App.urlToOpen data)).href ∨
            ClientCall.navigate c.id (resolve (App.urlToOpen data)).href
              ∈ (App.notificationclick resolve clients action data).calls))) ∧
    ((action = "open" ∨ action = "") →
      (Www.notificationclick action (.obj fields)).calls
        = [.close, .openWindow (orDefault (fields.lookup "url") (.str "/"))]) ∧
    (action ≠ "open" → action ≠ "" →
      (Www.notificationclick action data).calls = [.close]) := by
  refine ⟨⟨rfl, ?_, ?_, ?_⟩, ?_, ?_, ?_⟩
  · simp [App.urlToOpen, Json.truthy, Json.prop]
  · intro h
    simp [App.urlToOpen, Json.truthy, Json.prop, h, orDefault]
  · intro u h hu
    have ht : (Json.obj fields).truthy = true := rfl
    simp [App.urlToOpen, ht, Json.prop, h, orDefault, hu]
  · intro haction
    have hcalls : (App.notificationclick resolve clients action data).calls
        = [.close, .matchAll]
          ++ App.routeClients (resolve (App.urlToOpen data)) (App.urlToOpen data) clients := by
      simp [App.notificationclick, haction]
    refine ⟨hcalls, ?_⟩
    rw [hcalls]
    rcases routeClients_focus_or_open (resolve (App.urlToOpen data)) (App.urlToOpen data)
      clients with h | ⟨c, hc, hf, hn⟩
    · exact Or.inl (List.mem_append_right _ h)
    · refine Or.inr ⟨c, hc, List.mem_append_right _ hf, ?_⟩
      rcases hn with hn | hn
      · exact Or.inl hn
      · exact Or.inr (List.mem_append_right _ hn)
  · intro h
    simp [Www.notificationclick, h, Json.prop]
  · intro h1 h2
    simp [Www.notificationclick, h1, h2]

theorem click_opens_target_witness :
    (App.notificationclick sampleResolve sampleClients "open" (.obj [("url", .str "/y")])).calls
      = [.close, .matchAll]
        ++ App.routeClients (sampleResolve (App.urlToOpen (.obj [("url", .str "/y")])))
            (App.urlToOpen (.obj [("url", .str "/y")])) sampleClients ∧
    App.urlToOpen (.obj [("url", .str "/y")]) = .str "/y" ∧
    (Www.notificationclick "" (.obj [("url", .str "/y")])).calls
      = [.close, .openWindow (orDefault (some (.str "/y")) (.str "/"))] :=
  have h := click_opens_target sampleResolve sampleClients "open"
    (.obj [("url", .str "/y")]) [("url", .str "/y")]
  have h2 := click_opens_target sampleResolve sampleClients ""
    (.obj [("url", .str "/y")]) [("url", .str "/y")]
  ⟨(h.2.1 (by decide)).1, h.1.2.2.2 (.str "/y") rfl rfl, h2.2.2.1 (Or.inr rfl)⟩

/-- C19, counterexample. In `Www` a click with the action `view`, which is neither
`dismiss` nor `close`, on a notification whose data carries a URL only closes the
notification: no window is opened. -/
theorem www_view_does_nothing :
    "view" ≠ "dismiss" ∧ "view" ≠ "close" ∧
    (Www.notificationclick "view" (.obj [("url", .str "/y")])).calls = [.close] :=
  ⟨by decide, by decide, rfl⟩

/-! ## Push notifications -/

/-- A field of a spread object is the payload's when the payload has it, the base's
otherwise. -/
theorem field_spread (base fields : List (String × Json)) (key : String) :
    field (spread base (.obj fields)) key = (fields.lookup key).getD (field base key) := by
  simp only [field, spread, List.lookup_append]
  cases fields.lookup key <;> rfl

/-- C15 (as amended). In `App`, a push event whose payload is the JSON object
`{"body":"X","data":{"url":"/y"}}` shows a notification whose body is `X` and whose data
has the `url` `/y`, and a click on it with no action focuses a client at `/y` (after
navigating it there when needed) or opens a window at `/y`. In `Www` the notification
shown for that payload has the body `X`, but the handler reads the payload's own `url`,
so the `url` of its data stays `/` and the click opens a window at `/`. -/
theorem push_then_click (now : Int) (text : String) (resolve : Json → URL)
    (clients : List WindowClient) :
    (∃ shown data, App.push now (some { text := text, json := some samplePayload }) = .ok shown ∧
      shown.options.prop "body" = .ok (some (.str "X")) ∧
      shown.options.prop "data" = .ok (some data) ∧
      data.prop "url" = .ok (some (.str "/y")) ∧
      App.urlToOpen data = .str "/y" ∧
      (ClientCall.openWindow (.str "/y")
          ∈ (App.notificationclick resolve clients "" data).calls ∨
        ∃ c ∈ clients,
          ClientCall.focus c.id ∈ (App.notificationclick resolve clients "" data).calls ∧
          (c.url.href = (resolve (.str "/y")).href ∨
            ClientCall.navigate c.id (resolve (.str "/y")).href
              ∈ (App.notificationclick resolve clients "" data).calls))) ∧
    (∃ shown data, Www.push (some { text := text, json := some samplePayload }) = .ok shown ∧
      shown.options.prop "body" = .ok (some (.str "X")) ∧
      shown.options.prop "data" = .ok (some data) ∧
      data.prop "url" = .ok (some (.str "/")) ∧
      (Www.notificationclick "" data).calls = [.close, .openWindow (.str "/")]) := by
  refine ⟨⟨_, .obj [("url", .str "/y")], rfl, rfl, rfl, rfl, rfl, ?_⟩,
    ⟨_, .obj [("url", .str "/")], rfl, rfl, rfl, rfl, rfl⟩⟩
  have hcalls : (App.notificationclick resolve clients "" (.obj [("url", .str "/y")])).calls
      = [.close, .matchAll] ++ App.routeClients (resolve (.str "/y")) (.str "/y") clients :=
    rfl
  rw [hcalls]
  rcases routeClients_focus_or_open (resolve (.str "/y")) (.str "/y") clients
    with h | ⟨c, hc, hf, hn⟩
  · exact Or.inl (List.mem_append_right _ h)
  · refine Or.inr ⟨c, hc, List.mem_append_right _ hf, ?_⟩
    rcases hn with hn | hn
    · exact Or.inl hn
    · exact Or.inr (List.mem_append_right _ hn)

/-- C15, counterexample. In `Www` the push of `{"body":"X","data":{"url":"/y"}}` shows
a notification whose data has the `url` `/`, not `/y`, and the click with no action
opens a window at `/`. -/
theorem www_push_ignores_data_url :
    Www.push (some { text := "", json := some samplePayload })
      = .ok { title := .str Www.notificationTitle
              options := Www.options (.str "X") (.str "/") } ∧
    (Www.options (.str "X") (.str "/")).prop "data" = .ok (some (.obj [("url", .str "/")])) ∧
    Json.str "/" ≠ Json.str "/y" ∧
    (Www.notificationclick "" (.obj [("url", .str "/")])).calls
      = [.close, .openWindow (.str "/")] :=
  ⟨rfl, rfl, fun h => absurd (Json.str.inj h) (by decide), rfl⟩

/-- C16 (as amended). In `App`, for every push event whose payload is present but is
not valid JSON, the handler raises nothing and shows a notification whose body is the
payload's raw text, the default body when that text is empty, and whose title and other
options are those shown for a push without payload. `Www` has no such fallback: it
parses the payload outside any `try`, so the error is raised and no notification is
shown. -/
theorem push_invalid_json (now : Int) (text : String) :
    (∃ shown plain, App.push now (some { text := text, json := none }) = .ok shown ∧
      App.push now none = .ok plain ∧
      shown.title = plain.title ∧
      shown.options.prop "body"
        = .ok (some (if text = "" then .str "لديك إشعار جديد" else .str text)) ∧
      ∀ key, key ≠ "body" → shown.options.prop key = plain.options.prop key) ∧
    (∃ reason, Www.push (some { text := text, json := none }) = .error reason) := by
  refine ⟨⟨_, _, rfl, rfl, rfl, ?_, ?_⟩, ⟨_, rfl⟩⟩
  · by_cases ht : text = ""
    · simp [Json.prop, List.lookup, field, App.notificationData, orDefault, Json.truthy, ht,
        App.defaultNotification]
    · simp [Json.prop, List.lookup, field, App.notificationData, orDefault, Json.truthy, ht]
  · intro key hkey
    have hk : (key == "body") = false := by simpa using hkey
    simp only [Json.prop, List.lookup, hk]
    rfl

theorem push_invalid_json_witness :
    ∃ shown, App.push 0 (some { text := "service restarted", json := none }) = .ok shown ∧
      shown.options.prop "body" = .ok (some (.str "service restarted")) ∧
      shown.options.prop "tag" = .ok (some (.str "cmsvs-notification")) :=
  have ⟨shown, plain, hshown, hplain, _, hbody, hrest⟩ :=
    (push_invalid_json 0 "service restarted").1
  ⟨shown, hshown, hbody.trans rfl,
    (hrest "tag" (by decide)).trans (by
      have hp : plain = _ := Except.ok.inj (hplain.symm.trans rfl)
      rw [hp]
      rfl)⟩

/-- C16, counterexample. In `Www` a push whose payload is the plain text
`service restarted` makes the handler raise: no notification is shown. -/
theorem www_push_raises :
    Www.push (some { text := "service restarted", json := none })
      = .error "SyntaxError: payload is not valid JSON" :=
  rfl

/-- C17. In `App`, for every push payload that parses to a JSON object, the title, body,
icon, badge, data and actions of the notification shown are the payload's value for the
key when the payload has it and the default descriptor's value otherwise (a payload
`data` replaces the default data as a whole), and the text direction shown is `rtl`
whatever the payload holds. -/
theorem push_merges_payload (now : Int) (text : String) (fields : List (String × Json)) :
    ∃ shown, App.push now (some { text := text, json := some (.obj fields) }) = .ok shown ∧
      shown.title = (fields.lookup "title").getD (field (App.defaultNotification now) "title") ∧
      (∀ key ∈ ["body", "icon", "badge", "data", "actions"],
        shown.options.prop key
          = .ok (some ((fields.lookup key).getD (field (App.defaultNotification now) key)))) ∧
      shown.options.prop "dir" = .ok (some (.str "rtl")) := by
  refine ⟨_, rfl, ?_, ?_, rfl⟩
  · exact field_spread _ fields "title"
  · intro key hkey
    simp only [List.mem_cons, List.mem_singleton, List.not_mem_nil, or_false] at hkey
    rcases hkey with h | h | h | h | h <;> subst h
    · exact congrArg (fun v => Except.ok (some v)) (field_spread _ fields "body")
    · exact congrArg (fun v => Except.ok (some v)) (field_spread _ fields "icon")
    · exact congrArg (fun v => Except.ok (some v)) (field_spread _ fields "badge")
    · exact congrArg (fun v => Except.ok (some v)) (field_spread _ fields "data")
    · exact congrArg (fun v => Except.ok (some v)) (field_spread _ fields "actions")

theorem push_merges_payload_witness :
    ∃ shown, App.push 0 (some { text := "", json := some (.obj
        [("title", .str "T"), ("dir", .str "ltr"), ("data", .obj [("id", .num 7)])]) })
        = .ok shown ∧
      shown.title = .str "T" ∧
      shown.options.prop "data" = .ok (some (.obj [("id", .num 7)])) ∧
      shown.options.prop "body" = .ok (some (.str "لديك إشعار جديد")) ∧
      shown.options.prop "dir" = .ok (some (.str "rtl")) :=
  have ⟨shown, hshown, htitle, hkeys, hdir⟩ := push_merges_payload 0 ""
    [("title", .str "T"), ("dir", .str "ltr"), ("data", .obj [("id", .num 7)])]
  ⟨shown, hshown, htitle.trans rfl, (hkeys "data" (by decide)).trans rfl,
    (hkeys "body" (by decide)).trans rfl, hdir⟩

/-! ## Notification close, messages and background sync -/

/-- C21. In the `App` notificationclose listener, for every closed notification: the
dismissal-tracking POST is issued exactly when `trackDismissal` of the notification's
data is truthy (never for a notification without data); when issued, its JSON body
carries the `notificationId` of the data and the timestamp; and the listener raises
nothing, whether the data is absent or the tracking request fails. -/
theorem dismissal_tracking (now : Int) (data : Json) (tracking : Except String Response)
    (fields : List (String × Json)) :
    (App.dataProp .null "trackDismissal" = none ∧
      App.dataProp (.obj fields) "trackDismissal" = fields.lookup "trackDismissal") ∧
    (truthyProp (App.dataProp data "trackDismissal") = true →
      (App.notificationclose now data tracking).requests = [App.trackingRequest data now]) ∧
    (truthyProp (App.dataProp data "trackDismissal") = false →
      (App.notificationclose now data tracking).requests = []) ∧
    ((App.trackingRequest data now).url = "/api/notifications/track-dismissal" ∧
      (App.trackingRequest data now).method = "POST" ∧
      ∃ body, (App.trackingRequest data now).body = some body ∧
        body.prop "notificationId" = .ok (App.dataProp data "notificationId") ∧
        body.prop "timestamp" = .ok (some (.num now))) ∧
    (App.notificationclose now data tracking).raised = none := by
  refine ⟨⟨rfl, rfl⟩, ?_, ?_, ⟨rfl, rfl, _, rfl, ?_, ?_⟩, ?_⟩
  · intro h
    simp [App.notificationclose, h]
  · intro h
    simp [App.notificationclose, h]
  · unfold App.trackingBody
    cases App.dataProp data "notificationId" <;> rfl
  · unfold App.trackingBody
    cases App.dataProp data "notificationId" <;> rfl
  · unfold App.notificationclose
    split <;> rfl

theorem dismissal_tracking_witness :
    (App.notificationclose 1700000000000
        (.obj [("trackDismissal", .bool true), ("notificationId", .num 42)])
        (.error "Failed to fetch")).requests
      = [App.trackingRequest
          (.obj [("trackDismissal", .bool true), ("notificationId", .num 42)]) 1700000000000] ∧
    (App.notificationclose 1700000000000 .null (.error "Failed to fetch")).requests = [] :=
  ⟨(dismissal_tracking 1700000000000
      (.obj [("trackDismissal", .bool true), ("notificationId", .num 42)])
      (.error "Failed to fetch") []).2.1 rfl,
   (dismissal_tracking 1700000000000 .null (.error "Failed to fetch") []).2.2.1 rfl⟩

/-- C22. In the `App` message listener, for every message whose `data.type` is
`GET_VERSION` and that supplies a reply port, exactly one reply is posted, on that
port, and it is `{version: CACHE_NAME}`; `CACHE_NAME` is the name the install listener
opens and the name whose caches the activate listener keeps. -/
theorem get_version (data : Json) (port : Nat) (rest : List Nat) (deleteOk : Bool)
    (s : CacheStorage) (htype : data.prop "type" = .ok (some (.str "GET_VERSION"))) :
    (App.message data (port :: rest) deleteOk s).calls
      = [.postMessage port (.obj [("version", .str App.CACHE_NAME)])] ∧
    (App.message data (port :: rest) deleteOk s).raised = none ∧
    (∀ self openOk net st, Call.cachesOpen App.CACHE_NAME ∈ (App.install self openOk net st).calls) ∧
    (∀ keysOk del st, ∀ nc ∈ st, nc.1 = App.CACHE_NAME →
      nc ∈ (App.activate keysOk del st).storage) := by
  refine ⟨?_, ?_, ?_, ?_⟩
  · simp [App.message, htype, isString]
  · simp [App.message, htype, isString]
  · intro self openOk net st
    unfold App.install installHandler
    cases openOk with
    | false => simp
    | true => cases addAllResponses self net App.urlsToCache <;> simp
  · intro keysOk del st nc hnc hname
    unfold App.activate activateHandler
    cases keysOk with
    | false => simpa using hnc
    | true =>
      simp only [if_true]
      exact List.mem_filter.mpr ⟨hnc, by simp [hname]⟩

theorem get_version_witness :
    (App.message (.obj [("type", .str "GET_VERSION")]) [7] true []).calls
      = [.postMessage 7 (.obj [("version", .str "cmsvs-notifications-v1")])] :=
  (get_version (.obj [("type", .str "GET_VERSION")]) 7 [] true [] rfl).1

/-- C23 (as amended). In the `App` message listener, for every message whose
`data.type` is `CLEAR_CACHE`, `caches.delete(CACHE_NAME)` is called; when that promise
resolves, whether or not a cache of that name existed, the cache is gone and the one
reply `{success: true}` is posted on the supplied port; when it rejects, no reply is
posted and the promise given to `waitUntil` rejects. -/
theorem clear_cache (data : Json) (port : Nat) (rest : List Nat) (deleteOk : Bool)
    (s : CacheStorage) (htype : data.prop "type" = .ok (some (.str "CLEAR_CACHE"))) :
    (deleteOk = true →
      (App.message data (port :: rest) deleteOk s).calls
        = [.cachesDelete App.CACHE_NAME, .postMessage port (.obj [("success", .bool true)])] ∧
      (App.message data (port :: rest) deleteOk s).waitUntil = some (.resolved ()) ∧
      (App.message data (port :: rest) deleteOk s).storage = cachesDelete s App.CACHE_NAME ∧
      ∀ nc ∈ (App.message data (port :: rest) deleteOk s).storage, nc.1 ≠ App.CACHE_NAME) ∧
    (deleteOk = false →
      (App.message data (port :: rest) deleteOk s).calls = [.cachesDelete App.CACHE_NAME] ∧
      (∃ reason, (App.message data (port :: rest) deleteOk s).waitUntil
        = some (.rejected reason)) ∧
      (App.message data (port :: rest) deleteOk s).storage = s) := by
  refine ⟨?_, ?_⟩
  · intro hdel
    subst hdel
    refine ⟨?_, ?_, ?_, ?_⟩
    · simp [App.message, htype, isString]
    · simp [App.message, htype, isString]
    · simp [App.message, htype, isString]
    · intro nc hnc
      have hst : (App.message data (port :: rest) true s).storage
          = cachesDelete s App.CACHE_NAME := by
        simp [App.message, htype, isString]
      rw [hst] at hnc
      simpa [cachesDelete] using (List.mem_filter.mp hnc).2
  · intro hdel
    subst hdel
    refine ⟨?_, ?_, ?_⟩
    · simp [App.message, htype, isString]
    · exact ⟨"delete failed", by simp [App.message, htype, isString]⟩
    · simp [App.message, htype, isString]

theorem clear_cache_witness :
    (App.message (.obj [("type", .str "CLEAR_CACHE")]) [7] true
        [(App.CACHE_NAME, [(scriptRequest.url.href, storedScript)])]).calls
      = [.cachesDelete App.CACHE_NAME, .postMessage 7 (.obj [("success", .bool true)])] ∧
    (App.message (.obj [("type", .str "CLEAR_CACHE")]) [7] true
        [(App.CACHE_NAME, [(scriptRequest.url.href, storedScript)])]).storage
      = cachesDelete [(App.CACHE_NAME, [(scriptRequest.url.href, storedScript)])]
          App.CACHE_NAME :=
  have h := (clear_cache (.obj [("type", .str "CLEAR_CACHE")]) 7 [] true
    [(App.CACHE_NAME, [(scriptRequest.url.href, storedScript)])] rfl).1 rfl
  ⟨h.1, h.2.2.1⟩

/-- C23, counterexample. When `caches.delete` rejects no reply is posted at all, and
when there is no cache of the name, so that nothing is deleted, the reply is
`{success: true}`: `{success: false}` is never sent. -/
theorem clear_cache_no_failure_reply :
    (App.message (.obj [("type", .str "CLEAR_CACHE")]) [7] false
        [(App.CACHE_NAME, [])]).calls = [.cachesDelete App.CACHE_NAME] ∧
    (App.message (.obj [("type", .str "CLEAR_CACHE")]) [7] false
        [(App.CACHE_NAME, [])]).storage = [(App.CACHE_NAME, [])] ∧
    (App.message (.obj [("type", .str "CLEAR_CACHE")]) [7] true []).calls
      = [.cachesDelete App.CACHE_NAME, .postMessage 7 (.obj [("success", .bool true)])] :=
  ⟨rfl, rfl, rfl⟩

/-- A message whose `data` is not `null` and whose `type` is none of the three
recognised kinds is ignored: nothing is raised, no call is issued, the storage is
unchanged. -/
theorem App.message_unrecognised (data : Json) (ports : List Nat) (deleteOk : Bool)
    (s : CacheStorage) (type : Option Json) (hdata : data.prop "type" = .ok type)
    (h1 : isString type "SKIP_WAITING" = false) (h2 : isString type "GET_VERSION" = false)
    (h3 : isString type "CLEAR_CACHE" = false) :
    (App.message data ports deleteOk s).calls = [] ∧
    (App.message data ports deleteOk s).raised = none ∧
    (App.message data ports deleteOk s).waitUntil = none ∧
    (App.message data ports deleteOk s).storage = s := by
  simp [App.message, hdata, h1, h2, h3]

/-- C24, the failing input evaluated. A message whose data is `null` makes the `App`
message listener raise at `data.type`; a message object without `type` is ignored. -/
theorem message_null_raises :
    (App.message .null [7] true [(App.CACHE_NAME, [])]).raised
      = some "TypeError: cannot read properties of null" ∧
    (App.message .null [7] true [(App.CACHE_NAME, [])]).calls = [] ∧
    (App.message (.obj [("kind", .str "PING")]) [7] true [(App.CACHE_NAME, [])]).raised
      = none :=
  ⟨rfl, rfl, rfl⟩

/-- C30. `doBackgroundSync` issues exactly one request, a POST to
`/api/notifications/sync` without body; its promise rejects exactly when that request
rejects, and a response of any status, success or not, makes it resolve. The sync
listener starts it, inside `waitUntil`, exactly when the tag is `background-sync`. -/
theorem background_sync (tag : String) (net : Except String Response) :
    ((App.doBackgroundSync net).requests = [App.syncRequest] ∧
      App.syncRequest.url = "/api/notifications/sync" ∧
      App.syncRequest.method = "POST" ∧ App.syncRequest.body = none) ∧
    ((∃ reason, (App.doBackgroundSync net).promise = .rejected reason) ↔
      ∃ reason, net = .error reason) ∧
    (∀ response, net = .ok response → (App.doBackgroundSync net).promise = .resolved ()) ∧
    (tag = "background-sync" →
      (App.sync tag net).requests = [App.syncRequest] ∧
      (App.sync tag net).waitUntil = some (App.doBackgroundSync net).promise) ∧
    (tag ≠ "background-sync" →
      (App.sync tag net).requests = [] ∧ (App.sync tag net).waitUntil = none) := by
  refine ⟨⟨?_, rfl, rfl, rfl⟩, ?_, ?_, ?_, ?_⟩
  · cases net <;> rfl
  · cases net with
    | error e => exact ⟨fun _ => ⟨e, rfl⟩, fun _ => ⟨e, rfl⟩⟩
    | ok r =>
      constructor
      · rintro ⟨reason, h⟩
        simp [App.doBackgroundSync] at h
      · rintro ⟨reason, h⟩
        cases h
  · intro response h
    subst h
    rfl
  · intro h
    subst h
    refine ⟨?_, rfl⟩
    cases net <;> rfl
  · intro h
    simp [App.sync, h]

theorem background_sync_witness :
    (App.sync "background-sync"
        (.ok { status := 500, type := "basic", body := "error" })).waitUntil
      = some (.resolved ()) ∧
    (App.sync "periodic-sync" (.error "Failed to fetch")).requests = [] :=
  have h := background_sync "background-sync"
    (.ok { status := 500, type := "basic", body := "error" })
  have h2 := background_sync "periodic-sync" (.error "Failed to fetch")
  ⟨(h.2.2.2.1 rfl).2.trans (congrArg some (h.2.2.1 _ rfl)), (h2.2.2.2.2 (by decide)).1⟩

/-! ## Claiming clients, skipped replays and the offline document -/

/-- C25 (as amended). In both workers `clients.claim` is requested as soon as the
activate listener runs, right after `caches.keys()` has been called and its promise
given to `waitUntil`: it comes before every `caches.delete`, and so does not wait for
the cleanup of the stale caches. -/
theorem claim_before_cleanup (keysOk : Bool) (deleteOk : String → Bool) (s : CacheStorage) :
    (∃ later, (App.activate keysOk deleteOk s).calls = .cachesKeys :: .clientsClaim :: later ∧
      Call.clientsClaim ∉ later ∧
      (keysOk = true → ∀ nc ∈ s, nc.1 ≠ App.CACHE_NAME → Call.cachesDelete nc.1 ∈ later)) ∧
    (∃ later, (Www.activate keysOk deleteOk s).calls = .cachesKeys :: .clientsClaim :: later ∧
      Call.clientsClaim ∉ later ∧
      (keysOk = true → ∀ nc ∈ s, nc.1 ≠ Www.CACHE_NAME → Call.cachesDelete nc.1 ∈ later)) := by
  have hgen : ∀ name : String,
      ∃ later, (activateHandler name keysOk deleteOk s).calls
          = .cachesKeys :: .clientsClaim :: later ∧
        Call.clientsClaim ∉ later ∧
        (keysOk = true → ∀ nc ∈ s, nc.1 ≠ name → Call.cachesDelete nc.1 ∈ later) := by
    intro name
    cases keysOk with
    | false => exact ⟨[], by simp [activateHandler], by simp, by simp⟩
    | true =>
      refine ⟨((s.map (fun nc => nc.1)).filter (fun n => n != name)).map
        (fun n => Call.cachesDelete n), by simp [activateHandler], ?_, ?_⟩
      · intro h
        obtain ⟨n, _, hn⟩ := List.mem_map.mp h
        cases hn
      · intro _ nc hnc hne
        exact List.mem_map.mpr ⟨nc.1,
          List.mem_filter.mpr ⟨List.mem_map.mpr ⟨nc, hnc, rfl⟩, by simpa using hne⟩, rfl⟩
  exact ⟨hgen App.CACHE_NAME, hgen Www.CACHE_NAME⟩

theorem claim_before_cleanup_witness :
    ∃ later, (Www.activate true (fun _ => true)
        [("cmsvs-mobile-v0", []), (Www.CACHE_NAME, [])]).calls
        = .cachesKeys :: .clientsClaim :: later ∧
      Call.cachesDelete "cmsvs-mobile-v0" ∈ later :=
  have ⟨later, hcalls, _, hdel⟩ := (claim_before_cleanup true (fun _ => true)
    [("cmsvs-mobile-v0", []), (Www.CACHE_NAME, [])]).2
  ⟨later, hcalls, hdel rfl ("cmsvs-mobile-v0", []) (by decide) (by decide)⟩

/-- C25, counterexample. Activation of `Www` with one stale cache: `clients.claim` is
the second call, and the deletion of the stale cache comes after it. -/
theorem claim_precedes_delete :
    (Www.activate true (fun _ => true) [("cmsvs-mobile-v0", []), (Www.CACHE_NAME, [])]).calls
      = [.cachesKeys, .clientsClaim, .cachesDelete "cmsvs-mobile-v0"] ∧
    (App.activate true (fun _ => true) [("cmsvs-mobile-v0", []), (App.CACHE_NAME, [])]).calls
      = [.cachesKeys, .clientsClaim, .cachesDelete "cmsvs-mobile-v0"] := by
  decide

theorem kept_sublist (replayOk : Entry → Bool) (l : List Entry) :
    List.Sublist (kept replayOk l) l := by
  refine list_two_step (P := fun l => List.Sublist (kept replayOk l) l) ?_ ?_ ?_ l
  · exact List.Sublist.refl _
  · intro e
    cases hok : replayOk e with
    | true => simp [kept, hok]
    | false => simp [kept, hok]
  · intro e b t ht hbt
    cases hok : replayOk e with
    | true =>
      rw [kept_cons_ok replayOk e b t hok]
      exact List.Sublist.cons e (List.Sublist.cons₂ b ht)
    | false =>
      rw [kept_cons_fail replayOk e (b :: t) hok]
      exact List.Sublist.cons₂ e hbt

/-- When every replay succeeds the loop keeps the entries at the odd positions. -/
theorem kept_all_ok (replayOk : Entry → Bool) (hok : ∀ e, replayOk e = true)
    (l : List Entry) :
    (kept replayOk l).length = l.length / 2 ∧
    ∀ k, (kept replayOk l)[k]? = l[2 * k + 1]? := by
  refine list_two_step
    (P := fun l => (kept replayOk l).length = l.length / 2 ∧
      ∀ k, (kept replayOk l)[k]? = l[2 * k + 1]?) ?_ ?_ ?_ l
  · exact ⟨rfl, fun k => by simp [kept]⟩
  · intro e
    refine ⟨by simp [kept, hok e], fun k => ?_⟩
    simp [kept, hok e]
  · intro e b t ht _
    rw [kept_cons_ok replayOk e b t (hok e)]
    refine ⟨?_, ?_⟩
    · simp only [List.length_cons, ht.1]
      omega
    · intro k
      cases k with
      | zero => simp
      | succ k =>
        have h2 : 2 * (k + 1) + 1 = (2 * k + 1) + 1 + 1 := by omega
        rw [h2]
        simp only [List.getElem?_cons_succ]
        exact ht.2 k

/-- When every replay succeeds no entry that is kept was fetched. -/
theorem kept_not_attempted (replayOk : Entry → Bool) (hok : ∀ e, replayOk e = true)
    (l : List Entry) : l.Nodup → ∀ e ∈ kept replayOk l, e ∉ attempted replayOk l := by
  refine list_two_step
    (P := fun l => l.Nodup → ∀ e ∈ kept replayOk l, e ∉ attempted replayOk l) ?_ ?_ ?_ l
  · intro _ e he; simp [kept] at he
  · intro x _ e he; simp [kept, hok x] at he
  · intro x b t ht _ hnd e he hatt
    rw [kept_cons_ok replayOk x b t (hok x)] at he
    rw [attempted_cons_ok replayOk x b t (hok x)] at hatt
    have hnd1 := List.nodup_cons.mp hnd
    have hnd2 := List.nodup_cons.mp hnd1.2
    rcases List.mem_cons.mp he with heb | hek
    · rcases List.mem_cons.mp hatt with hex | hea
      · exact hnd1.1 (by rw [← hex, heb]; exact List.mem_cons_self _ _)
      · exact hnd2.1 (by rw [← heb]; exact (attempted_sublist replayOk t).subset hea)
    · rcases List.mem_cons.mp hatt with hex | hea
      · exact hnd1.1 (by
          rw [← hex]
          exact List.mem_cons_of_mem _ ((kept_sublist replayOk t).subset hek))
      · exact ht hnd2.2 e hek hea

/-- C27. For every stored queue all of whose replays succeed, `handleOfflineActions`
returns and the queue it writes back holds exactly the entries of the odd positions
(1, 3, 5, ...) of the original queue, in their order, half of the length rounded down
in number; none of the entries written back had a replay request issued. -/
theorem all_succeed_keeps_odd (q : List Action) (replayOk : Entry → Bool)
    (hok : ∀ e, replayOk e = true) :
    ∃ out w, Www.handleOfflineActions (.ok q) replayOk = some out ∧
      out.written = some w ∧
      w.length = q.length / 2 ∧
      (∀ k, (serialise w)[k]? = q[2 * k + 1]?) ∧
      (∀ k, w[k]? = (objectsFrom 0 q)[2 * k + 1]?) ∧
      ∀ e ∈ w, e ∉ out.fetched := by
  have hk := kept_all_ok replayOk hok (objectsFrom 0 q)
  refine ⟨_, _, handleOfflineActions_closed q replayOk, rfl, ?_, ?_, hk.2, ?_⟩
  · rw [hk.1, objectsFrom_length]
  · intro k
    have hq : q[2 * k + 1]? = (serialise (objectsFrom 0 q))[2 * k + 1]? := by
      rw [serialise_objectsFrom]
    rw [hq]
    simp only [serialise, List.getElem?_map, hk.2 k]
  · exact kept_not_attempted replayOk hok (objectsFrom 0 q) (objectsFrom_entries_nodup 0 q)

theorem all_succeed_keeps_odd_witness :
    ∃ out w, Www.handleOfflineActions (.ok [firstAction, secondAction, thirdAction])
        (fun _ => true) = some out ∧
      out.written = some w ∧ w.length = 1 ∧
      (serialise w)[0]? = some secondAction :=
  have ⟨out, w, hout, hw, hlen, hodd, _, _⟩ :=
    all_succeed_keeps_odd [firstAction, secondAction, thirdAction] (fun _ => true)
      (fun _ => rfl)
  ⟨out, w, hout, hw, hlen, hodd 0⟩

/-- The requests `fetchAll` returns are those of the paths, each with a response the
Cache API takes. -/
theorem fetchAll_requests (self : URL) (net : Network) (paths : List String) :
    ∀ es, fetchAll self net paths = some es →
      es.map (fun e => e.1) = paths.map (requestOf self) ∧
      ∀ e ∈ es, cacheable e.1 e.2 = true := by
  induction paths with
  | nil =>
    intro es h
    simp only [fetchAll, Option.some.injEq] at h
    subst h
    exact ⟨rfl, by simp⟩
  | cons p ps ih =>
    intro es h
    unfold fetchAll at h
    cases hn : net (requestOf self p) with
    | error e => simp [hn] at h
    | ok resp =>
      by_cases hok : (resp.ok && cacheable (requestOf self p) resp) = true
      · cases hrest : fetchAll self net ps with
        | none => simp [hn, hok, hrest] at h
        | some rest =>
          simp only [hn, hok, hrest, if_true, Option.map_some', Option.some.injEq] at h
          subst h
          have hc : cacheable (requestOf self p) resp = true := by
            simp only [Bool.and_eq_true] at hok
            exact hok.2
          refine ⟨by simp [(ih rest hrest).1], ?_⟩
          intro e he
          rcases List.mem_cons.mp he with rfl | he
          · exact hc
          · exact (ih rest hrest).2 e he
      · simp [hn, hok] at h

/-- An install from an empty storage leaves no entry for a path that is not in the
asset list, whatever the network does. -/
theorem install_misses_unlisted (name : String) (assets : List String) (self : URL)
    (net : Network) (path : String) (hpath : path ∉ assets) :
    cachesMatchPath self (installHandler name assets self true net []).storage path = none := by
  have hopen : cachesOpen [] name = [(name, [])] := by simp [cachesOpen]
  unfold installHandler addAllResponses
  simp only [if_true, hopen]
  by_cases hnd : assets.Nodup
  · rw [if_pos hnd]
    cases hes : fetchAll self net assets with
    | none => simp [cachesMatchPath, cachesMatch, cacheMatch]
    | some es =>
      obtain ⟨hreq, hcs⟩ := fetchAll_requests self net assets es hes
      have hkey : (requestOf self path).url.href ∉ es.map (fun e => e.1.url.href) := by
        intro hmem
        have h1 : es.map (fun e => e.1.url.href)
            = (es.map (fun e => e.1)).map (fun r => r.url.href) := by
          rw [List.map_map]; rfl
        rw [h1, hreq, List.map_map] at hmem
        obtain ⟨p, hp, heq⟩ := List.mem_map.mp hmem
        have hpp : p = path := href_requestOf_injective self heq
        exact hpath (hpp ▸ hp)
      simp only [foldl_cachePut name es hcs, List.map_cons, List.map_nil, if_true]
      simp only [cachesMatchPath, cachesMatch, List.findSome?, cacheMatch]
      have hlook := lookup_foldl_store_of_not_mem es [] _ hkey
      have hm : (requestOf self path).method = "GET" := rfl
      simp [hm, hlook]
  · rw [if_neg hnd]
    simp [cachesMatchPath, cachesMatch, cacheMatch]

/-- C28, the failing input evaluated. `/offline.html` is not in the precache list of
`App`, so after an install from an empty storage, successful or not, the fallback
lookup of the fetch listener finds nothing; the `/index.html` of `Www` is in its list
and is found after a successful install. -/
theorem offline_document_not_precached (self : URL) (net : Network) :
    App.offlineDocument ∉ App.urlsToCache ∧
    cachesMatchPath self (App.install self true net []).storage App.offlineDocument = none ∧
    Www.offlineDocument ∈ Www.STATIC_CACHE_FILES ∧
    cachesMatchPath sampleSelf (Www.install sampleSelf true onlineNetwork []).storage
      Www.offlineDocument = some { status := 200, type := "basic", body := "fresh" } :=
  ⟨by decide, install_misses_unlisted App.CACHE_NAME App.urlsToCache self net
      App.offlineDocument (by decide), by decide, by decide⟩

/-! ## Event lifetime -/

/-- The calls of a fetch event that are not chained into the promise given to
`respondWith` are the `caches.open` and `cache.put` calls. -/
theorem fetchOperations_detached (o : FetchOutcome) :
    ∀ op ∈ fetchOperations o,
      op.attached = false ↔
        ((∃ n, op.call = .cachesOpen n) ∨ ∃ n r resp, op.call = .cachePut n r resp) := by
  intro op hop
  obtain ⟨c, _, rfl⟩ := List.mem_map.mp hop
  cases c <;> simp [chainedInFetch]

/-- Every operation of an install or activate event is attached. -/
theorem lifecycleOperations_attached (o : LifecycleOutcome) :
    ∀ op ∈ lifecycleOperations o, op.attached = true := by
  intro op hop
  obtain ⟨c, _, rfl⟩ := List.mem_map.mp hop
  rfl

/-- C26 (as amended). In both workers every network or cache operation a listener
starts is attached to the event's extended lifetime, with two exceptions. The install
and activate listeners give their cache operations to `waitUntil`, the sync listeners
their requests, the message listener the `caches.delete` of `CLEAR_CACHE`, and the
fetch listeners give their cache lookups and their network fetch to `respondWith`. The
exceptions are the cache write of the fetch listeners (`caches.open` then `cache.put`),
started by a statement whose promise is dropped, so that the promise given to
`respondWith` is fulfilled with the network response whether the Cache API takes the
write or refuses it, and the dismissal-tracking request of notificationclose, which
never calls `waitUntil`. -/
theorem lifetime_attachment (self : URL) (net : Network) (s : CacheStorage) (req : Request)
    (response : Response) (now : Int) (data : Json) (tracking : Except String Response)
    (openOk keysOk : Bool) (deleteOk : String → Bool) (tag : String)
    (syncNet : Except String Response) (message : Json) (ports : List Nat)
    (deleteResolves : Bool) (stored : Except String (List Action))
    (replayOk : Entry → Bool) :
    (∀ op ∈ fetchOperations (App.fetchHandler self net s req)
        ++ fetchOperations (Www.fetchHandler self net s req),
      op.attached = false ↔
        ((∃ n, op.call = .cachesOpen n) ∨ ∃ n r resp, op.call = .cachePut n r resp)) ∧
    (req.method = "GET" → startsWith req.url.href "http" = true → cachesMatch s req = none →
      net req = .ok response → response.status = 200 → response.type = "basic" →
      includes req.url.href "/static/" = true →
      { call := .cachePut App.CACHE_NAME req response, attached := false }
        ∈ fetchOperations (App.fetchHandler self net s req) ∧
      (App.fetchHandler self net s req).respondWith = some (.resolved (some response)) ∧
      (cacheable req response = false →
        (App.fetchHandler self net s req).storage = cachesOpen s App.CACHE_NAME)) ∧
    (net req = .ok response → response.ok = true →
      (Www.isApiRequest req.url = true ∧ req.method = "GET" ∨
        Www.isApiRequest req.url = false ∧ cachesMatch s req = none) →
      { call := .cachePut Www.CACHE_NAME req response, attached := false }
        ∈ fetchOperations (Www.fetchHandler self net s req) ∧
      (Www.fetchHandler self net s req).respondWith = some (.resolved (some response)) ∧
      (cacheable req response = false →
        (Www.fetchHandler self net s req).storage = cachesOpen s Www.CACHE_NAME)) ∧
    ((∀ op ∈ lifecycleOperations (App.install self openOk net s)
        ++ lifecycleOperations (Www.install self openOk net s)
        ++ lifecycleOperations (App.activate keysOk deleteOk s)
        ++ lifecycleOperations (Www.activate keysOk deleteOk s), op.attached = true) ∧
      { call := .cachesOpen App.CACHE_NAME, attached := true }
        ∈ lifecycleOperations (App.install self openOk net s) ∧
      { call := .cachesOpen Www.CACHE_NAME, attached := true }
        ∈ lifecycleOperations (Www.install self openOk net s) ∧
      (∀ nc ∈ s, nc.1 ≠ App.CACHE_NAME →
        { call := .cachesDelete nc.1, attached := true }
          ∈ lifecycleOperations (App.activate true deleteOk s)) ∧
      (∀ nc ∈ s, nc.1 ≠ Www.CACHE_NAME →
        { call := .cachesDelete nc.1, attached := true }
          ∈ lifecycleOperations (Www.activate true deleteOk s))) ∧
    ((∀ r ∈ eventOperations (App.notificationclose now data tracking), r.attached = false) ∧
      (truthyProp (App.dataProp data "trackDismissal") = true →
        eventOperations (App.notificationclose now data tracking)
          = [{ request := App.trackingRequest data now, attached := false }])) ∧
    ((∀ r ∈ eventOperations (App.sync tag syncNet), r.attached = true) ∧
      eventOperations (App.sync "background-sync" syncNet)
        = [{ request := App.syncRequest, attached := true }]) ∧
    (∀ c ∈ messageOperations (App.message message ports deleteResolves s), c.2 = true) ∧
    (message.prop "type" = .ok (some (.str "CLEAR_CACHE")) →
      (MessageCall.cachesDelete App.CACHE_NAME, true)
        ∈ messageOperations (App.message message ports deleteResolves s)) ∧
    (∃ o, Www.sync tag stored replayOk = some o ∧
      (∀ e ∈ replayOperations o, e.2 = true) ∧
      (tag = "background-sync" → ∀ q, stored = .ok q →
        replayOperations o = (attempted replayOk (objectsFrom 0 q)).map (fun e => (e, true)))) := by
  refine ⟨?_, ?_, ?_, ⟨?_, ?_, ?_, ?_, ?_⟩, ⟨?_, ?_⟩, ⟨?_, ?_⟩, ?_, ?_, ?_⟩
  · intro op hop
    rcases List.mem_append.mp hop with h | h
    · exact fetchOperations_detached _ op h
    · exact fetchOperations_detached _ op h
  · intro hget hp hmiss hnet hst hty hinc
    refine ⟨?_, ?_, ?_⟩
    · simp [fetchOperations, App.fetchHandler, hget, hp, hmiss, hnet, hst, hty, hinc,
        chainedInFetch]
    · simp [App.fetchHandler, hget, hp, hmiss, hnet, hst, hty, hinc]
    · intro hc
      simp [App.fetchHandler, hget, hp, hmiss, hnet, hst, hty, hinc, cachePut, hc]
  · intro hnet hok hroute
    rcases hroute with ⟨hapi, hget⟩ | ⟨hapi, hmiss⟩
    · refine ⟨?_, ?_, ?_⟩
      · simp [fetchOperations, Www.fetchHandler, hapi, hget, hnet, hok, chainedInFetch]
      · simp [Www.fetchHandler, hapi, hget, hnet, hok]
      · intro hc
        simp [Www.fetchHandler, hapi, hget, hnet, hok, cachePut, hc]
    · refine ⟨?_, ?_, ?_⟩
      · simp [fetchOperations, Www.fetchHandler, hapi, hmiss, hnet, hok, chainedInFetch]
      · simp [Www.fetchHandler, hapi, hmiss, hnet, hok]
      · intro hc
        simp [Www.fetchHandler, hapi, hmiss, hnet, hok, cachePut, hc]
  · intro op hop
    simp only [List.mem_append] at hop
    rcases hop with ((h | h) | h) | h <;> exact lifecycleOperations_attached _ op h
  · unfold App.install installHandler lifecycleOperations
    cases openOk with
    | false => simp [Call.isOperation]
    | true => cases addAllResponses self net App.urlsToCache <;> simp [Call.isOperation]
  · unfold Www.install installHandler lifecycleOperations
    cases openOk with
    | false => simp [Call.isOperation]
    | true => cases addAllResponses self net Www.STATIC_CACHE_FILES <;> simp [Call.isOperation]
  · intro nc hnc hne
    apply List.mem_map.mpr
    refine ⟨.cachesDelete nc.1, List.mem_filter.mpr ⟨?_, rfl⟩, rfl⟩
    exact activateHandler_deletes App.CACHE_NAME deleteOk s nc hnc hne
  · intro nc hnc hne
    apply List.mem_map.mpr
    refine ⟨.cachesDelete nc.1, List.mem_filter.mpr ⟨?_, rfl⟩, rfl⟩
    exact activateHandler_deletes Www.CACHE_NAME deleteOk s nc hnc hne
  · intro r hr
    obtain ⟨q, _, rfl⟩ := List.mem_map.mp hr
    unfold App.notificationclose
    split <;> rfl
  · intro h
    simp [eventOperations, App.notificationclose, h]
  · intro r hr
    obtain ⟨q, hq, rfl⟩ := List.mem_map.mp hr
    unfold App.sync at hq ⊢
    by_cases ht : tag = "background-sync"
    · simp [ht]
    · simp [ht] at hq
  · cases syncNet <;> rfl
  · intro c hc
    unfold messageOperations at hc
    obtain ⟨m, hm, hsome⟩ := List.mem_filterMap.mp hc
    cases m with
    | skipWaiting => simp at hsome
    | postMessage port msg => simp at hsome
    | cachesDelete name =>
      simp only [Option.some.injEq] at hsome
      rw [← hsome]
      show (App.message message ports deleteResolves s).waitUntil.isSome = true
      unfold App.message at hm ⊢
      cases hprop : message.prop "type" with
      | error e => simp [hprop] at hm
      | ok type =>
        by_cases h1 : isString type "SKIP_WAITING" = true
        · simp [hprop, h1] at hm
        · by_cases h2 : isString type "GET_VERSION" = true
          · cases ports <;> simp [hprop, h1, h2] at hm
          · by_cases h3 : isString type "CLEAR_CACHE" = true
            · cases deleteResolves <;> cases ports <;> simp [h1, h2, h3]
            · simp [hprop, h1, h2, h3] at hm
  · intro htype
    unfold messageOperations App.message
    cases deleteResolves <;> cases ports <;> simp [htype, isString]
  · unfold Www.sync
    by_cases ht : tag = "background-sync"
    · cases stored with
      | error e =>
        refine ⟨_, by simp [ht, Www.handleOfflineActions]; rfl, ?_, ?_⟩
        · intro e he; simp [replayOperations] at he
        · intro _ q hq; cases hq
      | ok q =>
        refine ⟨_, by simp [ht, handleOfflineActions_closed]; rfl, ?_, ?_⟩
        · intro e he
          obtain ⟨x, _, rfl⟩ := List.mem_map.mp he
          rfl
        · intro _ q2 hq
          cases hq
          rfl
    · refine ⟨_, by simp [ht]; rfl, ?_, ?_⟩
      · intro e he; simp [replayOperations] at he
      · intro h; exact absurd h ht

theorem lifetime_attachment_witness :
    { call := .cachePut App.CACHE_NAME scriptRequest varyingScript, attached := false }
      ∈ fetchOperations (App.fetchHandler sampleSelf (fun _ => .ok varyingScript) []
          scriptRequest) ∧
    (App.fetchHandler sampleSelf (fun _ => .ok varyingScript) [] scriptRequest).respondWith
      = some (.resolved (some varyingScript)) ∧
    (App.fetchHandler sampleSelf (fun _ => .ok varyingScript) [] scriptRequest).storage
      = cachesOpen [] App.CACHE_NAME ∧
    { call := .cachePut Www.CACHE_NAME apiRequest apiResponse, attached := false }
      ∈ fetchOperations (Www.fetchHandler sampleSelf (fun _ => .ok apiResponse) []
          apiRequest) :=
  have h := (lifetime_attachment sampleSelf (fun _ => .ok varyingScript) [] scriptRequest
    varyingScript 0 .null (.error "Failed to fetch") true true (fun _ => true) "" (.error "")
    .null [] true (.ok []) (fun _ => true)).2.1
    (by decide) (by decide) (by decide) rfl (by decide) (by decide) (by decide)
  have h2 := (lifetime_attachment sampleSelf (fun _ => .ok apiResponse) [] apiRequest
    apiResponse 0 .null (.error "Failed to fetch") true true (fun _ => true) "" (.error "")
    .null [] true (.ok []) (fun _ => true)).2.2.1 rfl (by decide)
    (Or.inl ⟨by decide, by decide⟩)
  ⟨h.1, h.2.1, h.2.2 (by decide), h2.1⟩

/-- C26, counterexample. The close of a notification that asks for dismissal tracking:
the tracking request is started and `event.waitUntil` is not called, so the request is
not attached to the event. And a fetch of a static script in `App` answered with a
response carrying `Vary: *`: `cache.put` is called and the Cache API refuses it, yet the
promise given to `respondWith` is fulfilled with the response, so the write is not part
of that promise. -/
theorem tracking_request_unattached :
    (App.notificationclose 1700000000000
        (.obj [("trackDismissal", .bool true), ("notificationId", .num 42)])
        (.ok { status := 204, type := "basic", body := "" })).requests
      = [App.trackingRequest
          (.obj [("trackDismissal", .bool true), ("notificationId", .num 42)]) 1700000000000] ∧
    (App.notificationclose 1700000000000
        (.obj [("trackDismissal", .bool true), ("notificationId", .num 42)])
        (.ok { status := 204, type := "basic", body := "" })).waitUntil = none ∧
    Call.cachePut App.CACHE_NAME scriptRequest varyingScript
      ∈ (App.fetchHandler sampleSelf (fun _ => .ok varyingScript) [(App.CACHE_NAME, [])]
          scriptRequest).calls ∧
    (App.fetchHandler sampleSelf (fun _ => .ok varyingScript) [(App.CACHE_NAME, [])]
        scriptRequest).storage = [(App.CACHE_NAME, [])] ∧
    (App.fetchHandler sampleSelf (fun _ => .ok varyingScript) [(App.CACHE_NAME, [])]
        scriptRequest).respondWith = some (.resolved (some varyingScript)) :=
  ⟨rfl, rfl, by decide, by decide, by decide⟩

/-! ## Admin form validation -/

/-- C29, the failing input evaluated. The new user form with a required user name of
blanks only and every other field valid: `validateForm` returns `false`, and when it returns
the `errors` map is empty, no field carries the error marking, no error element is
left and `showFirstError` has no field to focus. The error the loop over the required
fields recorded was removed by the `clearFieldError` of `validateUsername`. -/
theorem required_error_cleared :
    (AdminFormValidator.validateForm formWithoutUsername).1 = false ∧
    (AdminFormValidator.validateForm formWithoutUsername).2.errors = [] ∧
    (AdminFormValidator.validateForm formWithoutUsername).2.errorElements = [] ∧
    (∀ f ∈ (AdminFormValidator.validateForm formWithoutUsername).2.fields,
      f.borderRed = false) ∧
    AdminFormValidator.showFirstError
      (AdminFormValidator.validateForm formWithoutUsername).2 = none ∧
    (AdminFormValidator.validateRequired
      (AdminFormValidator.requiredPositions formWithoutUsername)
      (true, formWithoutUsername)).2.errors = [("username", "هذا الحقل مطلوب")] := by
  decide

end SW
